/-
  Verification of the simulation/update engine of a Pac-Man style game
  (single Rust source file `src/main.rs`).

  Embedding notes:
  * All `f32` quantities in the source are multiples of 0.5 within a small
    range, hence exactly representable; we model them as rationals (`ℚ`) and
    `+ - *` on them are exact, matching the f32 semantics on these inputs.
  * The source compares Euclidean distances `sqrt(d) < t` against constant
    thresholds `t ≥ 0`; we compare the squared distance `d < t^2`, which is
    equivalent over the reals and matches the f32 computation on the
    representable inputs arising here (the thresholds 25, 20, 15.5 are exact
    f32 values and the squared distances are quarter-integers, never within
    an ulp of the threshold squares).
  * Rust's `f32::round` rounds half away from zero; `roundRs` below mirrors
    that (Mathlib's `round` rounds half up, which differs on negative halves).
  * The ghost AI key `(distance * 100.0) as i32` is modelled exactly as
    ⌊100·√d⌋ = Nat.sqrt ⌊10000·d⌋; truncation of a nonnegative float is floor.
  * `rand::thread_rng` draws are modelled by an explicit oracle per ghost per
    tick (`GOracle`); theorems quantify over all oracles.
  * u32/i32 are modelled as ℕ/ℤ (no overflow is reachable in the quantities
    involved here); `Instant`-based mouth animation and the thread count are
    rendering-only and are omitted from the state.
-/
import Mathlib

set_option maxRecDepth 100000

namespace Pacman

/-! ### Constants (src/main.rs lines 12-21) -/

def CELL_SIZE : ℚ := 30
def PACMAN_SIZE : ℚ := 25
def DOT_SIZE : ℚ := 6
def GHOST_SIZE : ℚ := 25
def MOVEMENT_SPEED : ℚ := 1
def GHOST_SPEED : ℚ := 1/2
def THIN_WALL_SIZE : ℚ := 30
def POWER_PELLET_SIZE : ℚ := 15
def POWER_PELLET_DURATION : ℚ := 5
def VULNERABLE_GHOST_SPEED : ℚ := 1/2

/-! ### The built-in map (src/main.rs lines 24-45) -/

def MAP_STR : List String := [
  "WWWWWWWWWWWWWWWWWWWW",
  "W........W.........W",
  "W.WW.WWW.W.WWW.WW.WW",
  "W..................W",
  "W.WW.W.WWWWW.W.WW.WW",
  "W....W...W...W....WW",
  "WWWW.WWW.W.WWW.WWWWW",
  "   W.W.......W.W   W",
  "WWWW.W.WW WW.W.WWWWW",
  "W....... GG ......W",
  "WWWW.W.WWWWW.W.WWWWW",
  "   W.W.......W.....W",
  "WWWW.W.WWWWW.W.WWWWW",
  "W........W........WW",
  "W.WW.WWW.W.WWW.WW.WW",
  "W..W.....P.....W..WW",
  "WW.W.W.WWWWW.W.W.WWW",
  "W....W...W...W....WW",
  "W.WWWWWW.W.WWWWWW..W",
  "WWWWWWWWWWWWWWWWWWWW"]

/-! ### Basic geometry -/

/-- `ggez::graphics::Rect` (only the fields used). -/
structure Rect where
  x : ℚ
  y : ℚ
  w : ℚ
  h : ℚ
  deriving Repr, DecidableEq

/-- `ggez` `Rect::overlaps`: inclusive AABB overlap test
    (`left ≤ other.right && right ≥ other.left && top ≤ other.bottom &&
    bottom ≥ other.top`). -/
def Rect.overlaps (a b : Rect) : Bool :=
  decide (a.x ≤ b.x + b.w) && decide (a.x + a.w ≥ b.x) &&
  decide (a.y ≤ b.y + b.h) && decide (a.y + a.h ≥ b.y)

/-- `ggez::mint::Point2<f32>`. -/
structure Point where
  x : ℚ
  y : ℚ
  deriving Repr, DecidableEq

/-- Squared Euclidean distance between two points, given coordinatewise.
    The source computes `sqrt` of this and compares with a constant; we keep
    the square and compare with the squared constant. -/
def distSq (ax ay bx bY : ℚ) : ℚ := (ax - bx)^2 + (ay - bY)^2

/-- Rust `f32::round` (half away from zero), as an integer result. -/
def roundRs (q : ℚ) : ℤ := if 0 ≤ q then round q else -round (-q)

/-! ### Directions and ghosts (src/main.rs lines 48-87) -/

inductive Direction where
  | up | down | left | right | none
  deriving Repr, DecidableEq

/-- Ghost colors used by the source (rendering identity only). -/
inductive Col where
  | red | cyan | magenta
  deriving Repr, DecidableEq

structure Ghost where
  x : ℚ
  y : ℚ
  direction : Direction
  color : Col
  target_x : ℚ
  target_y : ℚ
  is_vulnerable : Bool
  respawn_timer : ℚ
  spawn_position : ℚ × ℚ
  confused_timer : ℚ
  deriving Repr, DecidableEq

/-- `Ghost::new` (lines 74-87). -/
def Ghost.new (x y : ℚ) (color : Col) : Ghost :=
  { x := x, y := y, direction := Direction.left, color := color,
    target_x := x, target_y := y, is_vulnerable := false,
    respawn_timer := 0, spawn_position := (x, y), confused_timer := 0 }

/-- `Ghost::reset_position` (lines 191-198). -/
def Ghost.resetPosition (g : Ghost) : Ghost :=
  { g with x := g.spawn_position.1, y := g.spawn_position.2,
           is_vulnerable := false, respawn_timer := 0,
           direction := Direction.left, confused_timer := 3 }

/-- The ghost's hitbox rectangle. -/
def ghostRect (g : Ghost) : Rect := ⟨g.x, g.y, GHOST_SIZE, GHOST_SIZE⟩

/-- Per-ghost random oracle for one tick of `Ghost::update`:
    `act` stands for the `gen_bool(0.1)` / `gen_bool(0.05)` draw,
    `wander` for the `gen_bool(0.6)` draw, `(tx, ty)` for the two
    `gen_range(0.0..600.0)` draws, and `pick` for the
    `gen_range(0..valid_directions.len())` draw (taken modulo the length). -/
structure GOracle where
  act : Bool
  wander : Bool
  tx : ℚ
  ty : ℚ
  pick : ℕ
  deriving Repr, DecidableEq

def GOracle.default : GOracle := ⟨false, false, 0, 0, 0⟩

/-- Displacement of one step of size `s` in direction `d`
    (the `match dir` blocks at lines 127-133, 155-161, 172-178). -/
def dirDelta (d : Direction) (s : ℚ) : ℚ × ℚ :=
  match d with
  | Direction.up => (0, -s)
  | Direction.down => (0, s)
  | Direction.left => (-s, 0)
  | Direction.right => (s, 0)
  | Direction.none => (0, 0)

/-- The AI distance key `(distance * 100.0) as i32` (line 164):
    ⌊100·√d⌋ computed exactly as `Nat.sqrt ⌊10000·d⌋`. -/
def distKey (dsq : ℚ) : ℕ := Nat.sqrt (Int.toNat ⌊10000 * dsq⌋)

/-- Rust `Iterator::min_by_key` on a nonempty list: first minimum wins;
    the empty case is the `unwrap_or(&Direction::None)` fallback (line 165). -/
def minByKeyFirst (key : Direction → ℕ) : List Direction → Direction
  | [] => Direction.none
  | d :: ds => ds.foldl (fun best x => if key x < key best then x else best) d

/-- Target selection of `Ghost::update` (lines 94-109). -/
def ghostRetarget (o : GOracle) (pacman_x pacman_y : ℚ) (g : Ghost) : Ghost :=
  if g.confused_timer > 0 then
    if o.act then { g with target_x := o.tx, target_y := o.ty } else g
  else
    if o.act then
      if o.wander then { g with target_x := o.tx, target_y := o.ty }
      else { g with target_x := pacman_x, target_y := pacman_y }
    else g

/-- Direction filtering and selection of `Ghost::update` (lines 116-169). -/
def ghostChooseDir (o : GOracle) (walls : List Rect) (g : Ghost) : Ghost :=
  let speed := if g.is_vulnerable then VULNERABLE_GHOST_SPEED else GHOST_SPEED
  let valid := [Direction.up, Direction.down, Direction.left,
                Direction.right].filter (fun d =>
    let p := dirDelta d speed
    !(walls.any (fun w =>
        Rect.overlaps w ⟨g.x + p.1, g.y + p.2, GHOST_SIZE, GHOST_SIZE⟩)))
  if valid.isEmpty then g
  else
    let preferred :=
      if g.confused_timer > 0 then
        valid.getD (o.pick % valid.length) Direction.none
      else
        minByKeyFirst (fun d =>
          let u := dirDelta d 1
          distKey (distSq (g.x + u.1) (g.y + u.2) g.target_x g.target_y))
          valid
    { g with direction := preferred }

/-- Movement commit of `Ghost::update` (lines 171-188), always at
    `GHOST_SPEED`. -/
def ghostCommit (walls : List Rect) (g : Ghost) : Ghost :=
  let p := dirDelta g.direction GHOST_SPEED
  let nx := g.x + p.1
  let ny := g.y + p.2
  if !(walls.any (fun w =>
        Rect.overlaps w ⟨nx, ny, GHOST_SIZE, GHOST_SIZE⟩)) then
    { g with x := nx, y := ny }
  else g

/-- `Ghost::update` (lines 90-188), with the RNG draws supplied by `o`:
    the three sequential mutation stages above. -/
def ghostUpdate (o : GOracle) (walls : List Rect) (pacman_x pacman_y : ℚ)
    (g : Ghost) : Ghost :=
  ghostCommit walls (ghostChooseDir o walls (ghostRetarget o pacman_x pacman_y g))

/-! ### Engine state (src/main.rs lines 202-220)

`animation_start`/`mouth_open` (wall-clock mouth animation) and
`thread_count` are presentation-only and omitted. -/

structure MainState where
  pacman_x : ℚ
  pacman_y : ℚ
  current_direction : Direction
  requested_direction : Direction
  walls : List Rect
  dots : List Point
  ghosts : List Ghost
  score : ℕ
  lives : ℤ
  game_over : Bool
  show_menu : Bool
  power_pellets : List Point
  power_pellet_active : Bool
  power_pellet_timer : ℚ
  deriving Repr, DecidableEq

/-- The player's hitbox rectangle. -/
def pacmanRect (s : MainState) : Rect :=
  ⟨s.pacman_x, s.pacman_y, PACMAN_SIZE, PACMAN_SIZE⟩

/-! ### Map parsing / `MainState::new` (lines 223-301) -/

/-- Accumulator threaded through the character-grid parse loop of
    `MainState::new`: the wall/dot/ghost vectors plus `pacman_start_x/y`. -/
structure ParseAcc where
  walls : List Rect
  dots : List Point
  ghosts : List Ghost
  px : ℚ
  py : ℚ
  deriving Repr, DecidableEq

/-- One cell of the `match cell` in `MainState::new` (lines 253-278). -/
def parseCell (x y : ℕ) (c : Char) (a : ParseAcc) : ParseAcc :=
  let pos_x : ℚ := (x : ℚ) * CELL_SIZE
  let pos_y : ℚ := (y : ℚ) * CELL_SIZE
  if c = 'W' then
    { a with walls := a.walls ++ [⟨pos_x, pos_y, THIN_WALL_SIZE, THIN_WALL_SIZE⟩] }
  else if c = '.' then
    { a with dots := a.dots ++ [⟨pos_x + CELL_SIZE / 2, pos_y + CELL_SIZE / 2⟩] }
  else if c = 'G' then
    -- push RED, then (since len > 1) CYAN, then (since len > 2) MAGENTA;
    -- the length tests are embedded verbatim (lines 264-272)
    let gs := a.ghosts ++ [Ghost.new pos_x pos_y Col.red]
    let gs := if gs.length > 1 then gs ++ [Ghost.new pos_x pos_y Col.cyan] else gs
    let gs := if gs.length > 2 then gs ++ [Ghost.new pos_x pos_y Col.magenta] else gs
    { a with ghosts := gs }
  else if c = 'P' then
    { a with px := pos_x + (CELL_SIZE - PACMAN_SIZE) / 2,
             py := pos_y + (CELL_SIZE - PACMAN_SIZE) / 2 }
  else a

def parseRowGo (y : ℕ) : ℕ → List Char → ParseAcc → ParseAcc
  | _, [], a => a
  | x, c :: cs, a => parseRowGo y (x + 1) cs (parseCell x y c a)

def parseMapGo : ℕ → List String → ParseAcc → ParseAcc
  | _, [], a => a
  | y, r :: rs, a => parseMapGo (y + 1) rs (parseRowGo y 0 r.toList a)

/-- The four corner power pellets (lines 236-239 and 344-347),
    computed from the first-row width `w` and row count `h`. -/
def cornerPellets (w h : ℕ) : List Point :=
  [⟨CELL_SIZE * (3/2), CELL_SIZE * (3/2)⟩,
   ⟨CELL_SIZE * ((w : ℚ) - 3/2), CELL_SIZE * (3/2)⟩,
   ⟨CELL_SIZE * (3/2), CELL_SIZE * ((h : ℚ) - 3/2)⟩,
   ⟨CELL_SIZE * ((w : ℚ) - 3/2), CELL_SIZE * ((h : ℚ) - 3/2)⟩]

/-- The parse accumulator as it stands before the grid loop of
    `MainState::new`: empty vectors, the three center-spawned ghosts
    (lines 231-244), and `pacman_start_x/y = 0.0`.  `w`/`h` are the
    first-row width and the row count. -/
def initAcc (w h : ℕ) : ParseAcc :=
  -- center position for ghost spawn (lines 232-233)
  let center_x : ℚ := (⌊(w : ℚ) / 2⌋ : ℤ) * CELL_SIZE
  let center_y : ℚ := (⌊(h : ℚ) / 2⌋ : ℤ) * CELL_SIZE
  { walls := [], dots := [],
    ghosts := [Ghost.new center_x center_y Col.red,
               Ghost.new center_x center_y Col.cyan,
               Ghost.new center_x center_y Col.magenta],
    px := 0, py := 0 }

/-- `MainState::new`, generalized over the character grid exactly as the
    parse loop is written (the source reads the constant `MAP_STR`).
    The source indexes `MAP_STR[0]`, which panics on an empty grid; the
    `Option` models that single failure point.  No other failure exists:
    in particular a grid without a player-spawn marker parses fine and
    leaves `pacman_start_x/y` at the initialized `0.0`. -/
def loadState (map : List String) : Option MainState :=
  match map with
  | [] => none
  | r0 :: _ =>
    let w : ℕ := r0.length
    let h : ℕ := map.length
    let a := parseMapGo 0 map (initAcc w h)
    some
      { pacman_x := a.px, pacman_y := a.py,
        current_direction := Direction.none,
        requested_direction := Direction.none,
        walls := a.walls, dots := a.dots, ghosts := a.ghosts,
        score := 0, lives := 3, game_over := false, show_menu := false,
        power_pellets := cornerPellets w h,
        power_pellet_active := false, power_pellet_timer := 0 }

/-- A throwaway default state (only used to strip the `Option` on the
    known-nonempty built-in map). -/
def emptyState : MainState :=
  { pacman_x := 0, pacman_y := 0, current_direction := Direction.none,
    requested_direction := Direction.none, walls := [], dots := [],
    ghosts := [], score := 0, lives := 0, game_over := false,
    show_menu := false, power_pellets := [], power_pellet_active := false,
    power_pellet_timer := 0 }

/-- The engine state produced by `MainState::new` on the built-in map. -/
def initState : MainState := (loadState MAP_STR).getD emptyState

/-! ### Helper methods of `MainState` (lines 374-468) -/

/-- First index of the player-spawn marker in a row, if any. -/
def rowPIdx (cs : List Char) : Option ℕ :=
  cs.findIdx? (fun c => c = 'P')

/-- The row scan of `reset_pacman_position` / `reset_game` (both scan the
    constant `MAP_STR`): every row containing a 'P' overwrites the position
    with that row's first 'P' (the `break` only exits the inner loop). -/
def scanPacman : ℕ → List String → ℚ × ℚ → ℚ × ℚ
  | _, [], cur => cur
  | y, r :: rs, cur =>
    scanPacman (y + 1) rs
      (match rowPIdx r.toList with
       | some x => ((x : ℚ) * CELL_SIZE + (CELL_SIZE - PACMAN_SIZE) / 2,
                    (y : ℚ) * CELL_SIZE + (CELL_SIZE - PACMAN_SIZE) / 2)
       | none => cur)

/-- `MainState::reset_pacman_position` (lines 455-468). -/
def resetPacmanPosition (s : MainState) : MainState :=
  let p := scanPacman 0 MAP_STR (s.pacman_x, s.pacman_y)
  { s with pacman_x := p.1, pacman_y := p.2,
           current_direction := Direction.none,
           requested_direction := Direction.none }

/-- `MainState::can_move` (lines 375-390): test from the grid-snapped
    position offset by one full cell. -/
def canMove (s : MainState) (direction : Direction) : Bool :=
  let p := dirDelta direction CELL_SIZE
  let test_x := (roundRs (s.pacman_x / CELL_SIZE) : ℚ) * CELL_SIZE + p.1 +
    (CELL_SIZE - PACMAN_SIZE) / 2
  let test_y := (roundRs (s.pacman_y / CELL_SIZE) : ℚ) * CELL_SIZE + p.2 +
    (CELL_SIZE - PACMAN_SIZE) / 2
  !(s.walls.any (fun w =>
      Rect.overlaps w ⟨test_x, test_y, PACMAN_SIZE, PACMAN_SIZE⟩))

/-- `MainState::snap_to_grid` (lines 438-442), per axis. -/
def snapCoord (q : ℚ) : ℚ :=
  (roundRs (q / CELL_SIZE) : ℚ) * CELL_SIZE + (CELL_SIZE - PACMAN_SIZE) / 2

/-- `MainState::is_at_grid_center` (lines 444-452). -/
def isAtGridCenter (s : MainState) : Bool :=
  let grid_x := (s.pacman_x - (CELL_SIZE - PACMAN_SIZE) / 2) / CELL_SIZE
  let grid_y := (s.pacman_y - (CELL_SIZE - PACMAN_SIZE) / 2) / CELL_SIZE
  let center_x := (roundRs grid_x : ℚ) * CELL_SIZE + (CELL_SIZE - PACMAN_SIZE) / 2
  let center_y := (roundRs grid_y : ℚ) * CELL_SIZE + (CELL_SIZE - PACMAN_SIZE) / 2
  decide (|s.pacman_x - center_x| < 1) && decide (|s.pacman_y - center_y| < 1)

/-- The pursuer-player collision test: distance between centers below
    `(PACMAN_SIZE + GHOST_SIZE) / 2` (squared form), with `pcx`/`pcy` the
    pacman center. -/
def ghostHit (pcx pcy : ℚ) (g : Ghost) : Bool :=
  decide (distSq (g.x + GHOST_SIZE / 2) (g.y + GHOST_SIZE / 2) pcx pcy <
    ((PACMAN_SIZE + GHOST_SIZE) / 2)^2)

/-- `MainState::check_ghost_collision` loop body (lines 403-434).
    `px`/`py` are the pacman-center coordinates captured before the loop;
    `pre` are the already-visited ghosts. -/
def cgcGo (px py : ℚ) (s : MainState) (pre : List Ghost) :
    List Ghost → MainState
  | [] => { s with ghosts := pre }
  | g :: gs =>
    if g.respawn_timer ≤ 0 ∧ ghostHit px py g = true then
      if g.is_vulnerable then
        cgcGo px py { s with score := s.score + 200 }
          (pre ++ [g.resetPosition]) gs
      else
        -- lives -= 1; if lives <= 0 { game over, lives = 0, return }
        if s.lives - 1 ≤ 0 then
          { s with lives := 0, game_over := true, show_menu := true,
                   ghosts := pre ++ g :: gs }
        else
          -- reset pacman, reset ALL ghosts (in-loop mutations included), break
          let s' := resetPacmanPosition { s with lives := s.lives - 1 }
          { s' with ghosts := (pre ++ g :: gs).map Ghost.resetPosition }
    else
      cgcGo px py s (pre ++ [g]) gs

/-- `MainState::check_ghost_collision` (lines 393-435). -/
def checkGhostCollision (s : MainState) : MainState :=
  if s.lives ≤ 0 then s
  else
    cgcGo (s.pacman_x + PACMAN_SIZE / 2) (s.pacman_y + PACMAN_SIZE / 2)
      s [] s.ghosts

/-! ### The per-tick update `EventHandler::update` (lines 473-595),
    split into its successive passes. -/

/-- Ghost timer decrements (lines 488-495). -/
def tickGhostTimers (dt : ℚ) (g : Ghost) : Ghost :=
  let g := if g.confused_timer > 0 then
             { g with confused_timer := g.confused_timer - dt } else g
  if g.respawn_timer > 0 then
    { g with respawn_timer := g.respawn_timer - dt } else g

/-- Power-pellet window timer plus ghost timers (lines 477-495). -/
def phaseTimers (dt : ℚ) (s : MainState) : MainState :=
  let s :=
    if s.power_pellet_active then
      let t := s.power_pellet_timer - dt
      if t ≤ 0 then
        { s with power_pellet_timer := t, power_pellet_active := false,
                 ghosts := s.ghosts.map (fun g => { g with is_vulnerable := false }) }
      else { s with power_pellet_timer := t }
    else s
  { s with ghosts := s.ghosts.map (tickGhostTimers dt) }

/-- The power-pellet collection test (lines 499-501), squared form, with
    `px`/`py` the pacman position. -/
def nearPellet (px py : ℚ) (p : Point) : Bool :=
  decide (distSq (px + PACMAN_SIZE / 2) (py + PACMAN_SIZE / 2) p.x p.y <
    (PACMAN_SIZE / 2 + POWER_PELLET_SIZE / 2)^2)

/-- The `power_pellets.retain` pass (lines 498-511); `kept` accumulates the
    retained pellets in order. -/
def pelletsGo (px py : ℚ) (s : MainState) (kept : List Point) :
    List Point → MainState
  | [] => { s with power_pellets := kept }
  | p :: ps =>
    if nearPellet px py p = true then
      pelletsGo px py
        { s with power_pellet_active := true,
                 power_pellet_timer := POWER_PELLET_DURATION,
                 ghosts := s.ghosts.map (fun g => { g with is_vulnerable := true }) }
        kept ps
    else
      pelletsGo px py s (kept ++ [p]) ps

def phasePellets (s : MainState) : MainState :=
  pelletsGo s.pacman_x s.pacman_y s [] s.power_pellets

/-- The inline ghost-collision pass (lines 514-532): no break, no position
    resets on a life loss, and no clamp of `lives` at zero. -/
def inlineGo (px py : ℚ) (s : MainState) (pre : List Ghost) :
    List Ghost → MainState
  | [] => { s with ghosts := pre }
  | g :: gs =>
    if g.respawn_timer ≤ 0 ∧
        ghostHit (px + PACMAN_SIZE / 2) (py + PACMAN_SIZE / 2) g = true then
      if g.is_vulnerable then
        inlineGo px py { s with score := s.score + 200 }
          (pre ++ [g.resetPosition]) gs
      else
        let lives' := s.lives - 1
        inlineGo px py
          { s with lives := lives',
                   game_over := if lives' ≤ 0 then true else s.game_over,
                   show_menu := if lives' ≤ 0 then true else s.show_menu }
          (pre ++ [g]) gs
    else
      inlineGo px py s (pre ++ [g]) gs

def phaseInline (s : MainState) : MainState :=
  inlineGo s.pacman_x s.pacman_y s [] s.ghosts

/-- Everything up to and including the inline collision pass and the
    `if self.game_over { return }` test at line 534. -/
def afterInline (dt : ℚ) (s : MainState) : MainState :=
  phaseInline (phasePellets (phaseTimers dt s))

/-- The direction-change gate (lines 545-549). -/
def phaseGate (s : MainState) : MainState :=
  if isAtGridCenter s then
    if canMove s s.requested_direction then
      { s with current_direction := s.requested_direction }
    else s
  else s

/-- Player movement (lines 552-572): move one `MOVEMENT_SPEED` step if the
    new hitbox is wall-free, else snap to grid and clear the direction. -/
def phaseMove (s : MainState) : MainState :=
  let p := dirDelta s.current_direction MOVEMENT_SPEED
  let nx := s.pacman_x + p.1
  let ny := s.pacman_y + p.2
  if !(s.walls.any (fun w =>
        Rect.overlaps w ⟨nx, ny, PACMAN_SIZE, PACMAN_SIZE⟩)) then
    { s with pacman_x := nx, pacman_y := ny }
  else
    { s with pacman_x := snapCoord s.pacman_x,
             pacman_y := snapCoord s.pacman_y,
             current_direction := Direction.none }

/-- Ghost updates (lines 575-577), each with its own oracle. -/
def ghostsGo (o : List GOracle) (walls : List Rect) (px py : ℚ) :
    ℕ → List Ghost → List Ghost
  | _, [] => []
  | i, g :: gs =>
    ghostUpdate (o.getD i GOracle.default) walls px py g ::
      ghostsGo o walls px py (i + 1) gs

def phaseGhosts (o : List GOracle) (s : MainState) : MainState :=
  { s with ghosts := ghostsGo o s.walls s.pacman_x s.pacman_y 0 s.ghosts }

/-- The pickup collection test (lines 584-586), squared form, with
    `px`/`py` the pacman position. -/
def nearDot (px py : ℚ) (d : Point) : Bool :=
  decide (distSq (px + PACMAN_SIZE / 2) (py + PACMAN_SIZE / 2) d.x d.y <
    (PACMAN_SIZE / 2 + DOT_SIZE / 2)^2)

/-- The `dots.retain` pass (lines 583-592). -/
def dotsGo (px py : ℚ) (s : MainState) (kept : List Point) :
    List Point → MainState
  | [] => { s with dots := kept }
  | d :: ds =>
    if nearDot px py d = true then
      dotsGo px py { s with score := s.score + 10 } kept ds
    else
      dotsGo px py s (kept ++ [d]) ds

def phaseDots (s : MainState) : MainState :=
  dotsGo s.pacman_x s.pacman_y s [] s.dots

/-- The passes after the game-over early return: gate, move, ghost updates,
    dedicated collision pass. -/
def postMenuPhases (o : List GOracle) (m : MainState) : MainState :=
  checkGhostCollision (phaseGhosts o (phaseMove (phaseGate m)))

/-- The state just before the `dots.retain` pass of a tick. -/
def preDots (o : List GOracle) (dt : ℚ) (s : MainState) : MainState :=
  postMenuPhases o (afterInline dt s)

/-- One tick: `EventHandler::update` (lines 473-595). -/
def update (o : List GOracle) (dt : ℚ) (s : MainState) : MainState :=
  let m := afterInline dt s
  if m.game_over then m else phaseDots (postMenuPhases o m)

/-! ### `reset_game` (lines 303-372) and input events -/

/-- The 'G'-marker scan of `reset_game` (lines 316-326): positions are the
    cell corner plus the `(CELL_SIZE - GHOST_SIZE) / 2` centering offset. -/
def ghostSpawnRow (y : ℕ) : ℕ → List Char → List (ℚ × ℚ)
  | _, [] => []
  | x, c :: cs =>
    (if c = 'G' then
      [((x : ℚ) * CELL_SIZE + (CELL_SIZE - GHOST_SIZE) / 2,
        (y : ℚ) * CELL_SIZE + (CELL_SIZE - GHOST_SIZE) / 2)]
     else []) ++ ghostSpawnRow y (x + 1) cs

def ghostSpawnsGo : ℕ → List String → List (ℚ × ℚ)
  | _, [] => []
  | y, r :: rs => ghostSpawnRow y 0 r.toList ++ ghostSpawnsGo (y + 1) rs

/-- The '.'-cell scan of `reset_game` (lines 360-370). -/
def dotsOfRow (y : ℕ) : ℕ → List Char → List Point
  | _, [] => []
  | x, c :: cs =>
    (if c = '.' then
      [⟨(x : ℚ) * CELL_SIZE + CELL_SIZE / 2, (y : ℚ) * CELL_SIZE + CELL_SIZE / 2⟩]
     else []) ++ dotsOfRow y (x + 1) cs

def dotsOfGo : ℕ → List String → List Point
  | _, [] => []
  | y, r :: rs => dotsOfRow y 0 r.toList ++ dotsOfGo (y + 1) rs

/-- `MainState::reset_game` (lines 303-372); walls are untouched.  The scans
    read the constant `MAP_STR`, exactly as the source does. -/
def resetGame (s : MainState) : MainState :=
  let p := scanPacman 0 MAP_STR (s.pacman_x, s.pacman_y)
  let spawns := ghostSpawnsGo 0 MAP_STR
  let ghosts :=
    match spawns with
    | [] => ([] : List Ghost)
    | q :: _ => [Ghost.new q.1 q.2 Col.red, Ghost.new q.1 q.2 Col.cyan,
                 Ghost.new q.1 q.2 Col.magenta]
  { s with
    pacman_x := p.1, pacman_y := p.2,
    ghosts := ghosts,
    power_pellets := cornerPellets (MAP_STR.headD "").length MAP_STR.length,
    score := 0, lives := 3, game_over := false, show_menu := false,
    current_direction := Direction.none,
    requested_direction := Direction.none,
    power_pellet_active := false, power_pellet_timer := 0,
    dots := dotsOfGo 0 MAP_STR }

/-- `key_down_event` (lines 878-896), with the keycode already mapped to a
    direction; a non-arrow key behaves as `k = s.requested_direction`. -/
def keyDownEvent (k : Direction) (s : MainState) : MainState :=
  if s.game_over then s
  else
    let s := { s with requested_direction := k }
    if isAtGridCenter s then
      if canMove s k then { s with current_direction := k } else s
    else s

/-- Engine states reachable from initialization on the built-in map through
    ticks (any delta-time and RNG draws), external resets, and direction
    requests. -/
inductive Reachable : MainState → Prop
  | init : Reachable initState
  | tick (o : List GOracle) (dt : ℚ) {s : MainState} :
      Reachable s → Reachable (update o dt s)
  | reset {s : MainState} : Reachable s → Reachable (resetGame s)
  | key (k : Direction) {s : MainState} :
      Reachable s → Reachable (keyDownEvent k s)

/-! ### Structural lemmas: ghost update stages -/

lemma ghostRetarget_proj (o : GOracle) (px py : ℚ) (g : Ghost) :
    (ghostRetarget o px py g).x = g.x ∧
    (ghostRetarget o px py g).y = g.y ∧
    (ghostRetarget o px py g).direction = g.direction ∧
    (ghostRetarget o px py g).is_vulnerable = g.is_vulnerable ∧
    (ghostRetarget o px py g).respawn_timer = g.respawn_timer ∧
    (ghostRetarget o px py g).spawn_position = g.spawn_position ∧
    (ghostRetarget o px py g).confused_timer = g.confused_timer := by
  refine ⟨?_, ?_, ?_, ?_, ?_, ?_, ?_⟩ <;>
    (unfold ghostRetarget; split <;> (try split) <;> (try split) <;> rfl)

lemma ghostChooseDir_proj (o : GOracle) (walls : List Rect) (g : Ghost) :
    (ghostChooseDir o walls g).x = g.x ∧
    (ghostChooseDir o walls g).y = g.y ∧
    (ghostChooseDir o walls g).is_vulnerable = g.is_vulnerable ∧
    (ghostChooseDir o walls g).respawn_timer = g.respawn_timer ∧
    (ghostChooseDir o walls g).spawn_position = g.spawn_position ∧
    (ghostChooseDir o walls g).confused_timer = g.confused_timer := by
  refine ⟨?_, ?_, ?_, ?_, ?_, ?_⟩ <;>
    (simp only [ghostChooseDir]; split <;> (try split) <;> rfl)

lemma ghostCommit_proj (walls : List Rect) (g : Ghost) :
    (ghostCommit walls g).direction = g.direction ∧
    (ghostCommit walls g).is_vulnerable = g.is_vulnerable ∧
    (ghostCommit walls g).respawn_timer = g.respawn_timer ∧
    (ghostCommit walls g).spawn_position = g.spawn_position ∧
    (ghostCommit walls g).confused_timer = g.confused_timer := by
  refine ⟨?_, ?_, ?_, ?_, ?_⟩ <;>
    (simp only [ghostCommit]; split <;> rfl)

lemma ghostUpdate_respawn (o : GOracle) (walls : List Rect) (px py : ℚ)
    (g : Ghost) :
    (ghostUpdate o walls px py g).respawn_timer = g.respawn_timer := by
  unfold ghostUpdate
  rw [(ghostCommit_proj _ _).2.2.1, (ghostChooseDir_proj _ _ _).2.2.2.1,
    (ghostRetarget_proj _ _ _ _).2.2.2.2.1]

/-- The committed move of `Ghost::update` never moves a wall-free ghost
    hitbox into a wall: the commit is guarded by the same overlap test. -/
lemma ghostUpdate_no_wall (o : GOracle) (walls : List Rect) (px py : ℚ)
    (g : Ghost)
    (h : walls.any (fun w => Rect.overlaps w (ghostRect g)) = false) :
    walls.any (fun w =>
      Rect.overlaps w (ghostRect (ghostUpdate o walls px py g))) = false := by
  unfold ghostUpdate
  have hx2 := ghostChooseDir_proj o walls (ghostRetarget o px py g)
  have hx1 := ghostRetarget_proj o px py g
  set g2 := ghostChooseDir o walls (ghostRetarget o px py g) with hg2
  have hgx : g2.x = g.x := by rw [hx2.1, hx1.1]
  have hgy : g2.y = g.y := by rw [hx2.2.1, hx1.2.1]
  show walls.any (fun w => Rect.overlaps w (ghostRect (ghostCommit walls g2))) = false
  simp only [ghostCommit]
  split
  · next hguard =>
    simpa [ghostRect] using (Bool.not_eq_true' _).mp hguard
  · simpa [ghostRect, hgx, hgy] using h

/-- `reset_position` is idempotent. -/
lemma resetPosition_idem (g : Ghost) :
    g.resetPosition.resetPosition = g.resetPosition := rfl

/-- The `reset_pacman_position` scan of the built-in map always lands on the
    single 'P' cell, whatever the previous position was. -/
lemma scanPacman_const (cur : ℚ × ℚ) :
    scanPacman 0 MAP_STR cur = (545/2, 905/2) := by
  with_unfolding_all rfl

/-! ### Structural lemmas: the tick passes -/

/-- Fields untouched by `phaseTimers`. -/
lemma phaseTimers_proj (dt : ℚ) (s : MainState) :
    (phaseTimers dt s).walls = s.walls ∧
    (phaseTimers dt s).pacman_x = s.pacman_x ∧
    (phaseTimers dt s).pacman_y = s.pacman_y ∧
    (phaseTimers dt s).current_direction = s.current_direction ∧
    (phaseTimers dt s).requested_direction = s.requested_direction ∧
    (phaseTimers dt s).dots = s.dots ∧
    (phaseTimers dt s).score = s.score ∧
    (phaseTimers dt s).lives = s.lives ∧
    (phaseTimers dt s).game_over = s.game_over ∧
    (phaseTimers dt s).show_menu = s.show_menu ∧
    (phaseTimers dt s).power_pellets = s.power_pellets := by
  refine ⟨?_, ?_, ?_, ?_, ?_, ?_, ?_, ?_, ?_, ?_, ?_⟩ <;>
    (simp only [phaseTimers]; split <;> (try split) <;> rfl)

/-- `tickGhostTimers` only lowers timers: position, spawn and vulnerability
    are untouched, and a zero respawn timer stays zero. -/
lemma tickGhostTimers_fields (dt : ℚ) (g : Ghost) :
    (tickGhostTimers dt g).x = g.x ∧
    (tickGhostTimers dt g).y = g.y ∧
    (tickGhostTimers dt g).spawn_position = g.spawn_position ∧
    (tickGhostTimers dt g).is_vulnerable = g.is_vulnerable ∧
    (g.respawn_timer = 0 → (tickGhostTimers dt g).respawn_timer = 0) := by
  refine ⟨?_, ?_, ?_, ?_, ?_⟩
  · simp only [tickGhostTimers]; split <;> (try split) <;> rfl
  · simp only [tickGhostTimers]; split <;> (try split) <;> rfl
  · simp only [tickGhostTimers]; split <;> (try split) <;> rfl
  · simp only [tickGhostTimers]; split <;> (try split) <;> rfl
  · intro h0
    simp only [tickGhostTimers]
    have hc : (if g.confused_timer > 0 then
        { g with confused_timer := g.confused_timer - dt } else g).respawn_timer = 0 := by
      split <;> simpa using h0
    rw [if_neg (by rw [hc]; exact lt_irrefl 0)]
    exact hc

/-- The ghost list after `phaseTimers` is a pointwise image of the old one
    under a map that keeps position, spawn and zero respawn timers. -/
lemma phaseTimers_ghosts (dt : ℚ) (s : MainState) :
    ∃ f : Ghost → Ghost,
      (∀ g, (f g).x = g.x ∧ (f g).y = g.y ∧
        (f g).spawn_position = g.spawn_position ∧
        (g.respawn_timer = 0 → (f g).respawn_timer = 0)) ∧
      (phaseTimers dt s).ghosts = s.ghosts.map f := by
  simp only [phaseTimers]
  split
  · split
    · refine ⟨fun g => tickGhostTimers dt { g with is_vulnerable := false },
        fun g => ?_, by simp [List.map_map, Function.comp]⟩
      have h := tickGhostTimers_fields dt { g with is_vulnerable := false }
      exact ⟨h.1, h.2.1, h.2.2.1, h.2.2.2.2⟩
    · exact ⟨tickGhostTimers dt, fun g => by
        have h := tickGhostTimers_fields dt g
        exact ⟨h.1, h.2.1, h.2.2.1, h.2.2.2.2⟩, rfl⟩
  · exact ⟨tickGhostTimers dt, fun g => by
      have h := tickGhostTimers_fields dt g
      exact ⟨h.1, h.2.1, h.2.2.1, h.2.2.2.2⟩, rfl⟩

/-- Setting `is_vulnerable` twice is the same as setting it once. -/
lemma setVuln_map_idem (l : List Ghost) :
    (l.map (fun g => { g with is_vulnerable := true })).map
        (fun g => { g with is_vulnerable := true }) =
      l.map (fun g => { g with is_vulnerable := true }) := by
  simp [List.map_map]

/-- Shape of the power-pellet pass: it only rewrites the pellet list, the
    window flag/timer, and (possibly) sets every ghost vulnerable. -/
lemma pelletsGo_shape (px py : ℚ) (s : MainState) (kept rest : List Point) :
    ∃ (pp : List Point) (a : Bool) (t : ℚ),
      pelletsGo px py s kept rest =
        { s with power_pellets := pp, power_pellet_active := a,
                 power_pellet_timer := t } ∨
      pelletsGo px py s kept rest =
        { s with power_pellets := pp, power_pellet_active := a,
                 power_pellet_timer := t,
                 ghosts := s.ghosts.map (fun g => { g with is_vulnerable := true }) } := by
  induction rest generalizing s kept with
  | nil => exact ⟨kept, s.power_pellet_active, s.power_pellet_timer, Or.inl rfl⟩
  | cons p ps ih =>
    simp only [pelletsGo]
    split
    · obtain ⟨pp, a, t, h | h⟩ := ih
        { s with power_pellet_active := true,
                 power_pellet_timer := POWER_PELLET_DURATION,
                 ghosts := s.ghosts.map (fun g => { g with is_vulnerable := true }) }
        kept
      · exact ⟨pp, a, t, Or.inr h⟩
      · rw [h]
        exact ⟨pp, a, t, Or.inr (by rw [setVuln_map_idem])⟩
    · exact ih s (kept ++ [p])

/-- Keep-or-reset relation between a ghost before and after a collision
    pass. -/
def KR (a b : Ghost) : Prop := b = a ∨ b = a.resetPosition

lemma KR_refl (a : Ghost) : KR a a := Or.inl rfl

lemma KR_of_KR_reset {a b : Ghost} (h : KR a.resetPosition b) : KR a b := by
  rcases h with h | h
  · exact Or.inr h
  · exact Or.inr (by rw [h, resetPosition_idem])

/-- Replacing one element of the left list by a `KR`-stronger one preserves
    `Forall₂ KR`. -/
lemma forall₂_KR_mid (a b : Ghost) (hab : ∀ c, KR b c → KR a c) :
    ∀ {l1 l2 gh : List Ghost},
      List.Forall₂ KR (l1 ++ b :: l2) gh → List.Forall₂ KR (l1 ++ a :: l2) gh := by
  intro l1
  induction l1 with
  | nil =>
    intro l2 gh h
    cases h with
    | cons hc ht => exact List.Forall₂.cons (hab _ hc) ht
  | cons x xs ih =>
    intro l2 gh h
    cases h with
    | cons hc ht => exact List.Forall₂.cons hc (ih ht)

/-- Shape of the inline collision pass (lines 514-532): it only rewrites
    score, lives, the game-over flags and the ghost list; each ghost is kept
    or reset; the game-over flags are monotone. -/
lemma inlineGo_shape (px py : ℚ) (s : MainState) (pre rest : List Ghost) :
    ∃ (sc : ℕ) (lv : ℤ) (go sm : Bool) (gh : List Ghost),
      inlineGo px py s pre rest =
        { s with score := sc, lives := lv, game_over := go, show_menu := sm,
                 ghosts := gh } ∧
      List.Forall₂ KR (pre ++ rest) gh ∧
      (s.game_over = true → go = true) ∧
      (s.show_menu = true → sm = true) := by
  induction rest generalizing s pre with
  | nil =>
    refine ⟨s.score, s.lives, s.game_over, s.show_menu, pre, rfl, ?_,
      fun h => h, fun h => h⟩
    simpa using List.forall₂_same.2 (fun g _ => KR_refl g)
  | cons g gs ih =>
    simp only [inlineGo]
    split
    · split
      · -- vulnerable: reset this ghost, award 200, keep going
        obtain ⟨sc, lv, go, sm, gh, he, hf, hg, hs⟩ :=
          ih { s with score := s.score + 200 } (pre ++ [g.resetPosition])
        refine ⟨sc, lv, go, sm, gh, he, ?_, hg, hs⟩
        exact forall₂_KR_mid g g.resetPosition (fun c h => KR_of_KR_reset h)
          (by simpa [List.append_assoc] using hf)
      · -- non-vulnerable: lose a life, maybe set the flags, keep going
        obtain ⟨sc, lv, go, sm, gh, he, hf, hg, hs⟩ :=
          ih { s with lives := s.lives - 1,
                      game_over := if s.lives - 1 ≤ 0 then true else s.game_over,
                      show_menu := if s.lives - 1 ≤ 0 then true else s.show_menu }
            (pre ++ [g])
        refine ⟨sc, lv, go, sm, gh, he, by simpa [List.append_assoc] using hf,
          fun h => hg (by simp [h]), fun h => hs (by simp [h])⟩
    · obtain ⟨sc, lv, go, sm, gh, he, hf, hg, hs⟩ := ih s (pre ++ [g])
      exact ⟨sc, lv, go, sm, gh, he, by simpa [List.append_assoc] using hf,
        hg, hs⟩

/-- Shape of the dedicated collision pass `check_ghost_collision`:
    it only rewrites score, lives, the flags, the ghost list, and (on a
    non-fatal life loss) resets the player to the map spawn; every output
    ghost is an input ghost kept or reset. -/
lemma cgcGo_shape (px py : ℚ) (s : MainState) (pre rest : List Ghost) :
    ∃ (sc : ℕ) (lv : ℤ) (go sm : Bool) (gh : List Ghost),
      (cgcGo px py s pre rest =
         { s with score := sc, lives := lv, game_over := go, show_menu := sm,
                  ghosts := gh } ∨
       cgcGo px py s pre rest =
         { s with score := sc, lives := lv, game_over := go, show_menu := sm,
                  ghosts := gh, pacman_x := 545/2, pacman_y := 905/2,
                  current_direction := Direction.none,
                  requested_direction := Direction.none }) ∧
      (∀ g' ∈ gh, ∃ g, g ∈ pre ++ rest ∧ (g' = g ∨ g' = g.resetPosition)) := by
  induction rest generalizing s pre with
  | nil =>
    refine ⟨s.score, s.lives, s.game_over, s.show_menu, pre, Or.inl rfl, ?_⟩
    intro g' hg'
    exact ⟨g', by simpa using hg', Or.inl rfl⟩
  | cons g gs ih =>
    simp only [cgcGo]
    split
    · split
      · -- vulnerable capture
        obtain ⟨sc, lv, go, sm, gh, he, hm⟩ :=
          ih { s with score := s.score + 200 } (pre ++ [g.resetPosition])
        refine ⟨sc, lv, go, sm, gh, he, ?_⟩
        intro g' hg'
        obtain ⟨a, ha, hk⟩ := hm g' hg'
        rcases List.mem_append.mp ha with h | h
        · rcases List.mem_append.mp h with h' | h'
          · exact ⟨a, List.mem_append_left _ h', hk⟩
          · have hag : a = g.resetPosition := by simpa using h'
            refine ⟨g, List.mem_append_right _ (List.mem_cons_self _ _), ?_⟩
            rcases hk with hk | hk
            · exact Or.inr (hag ▸ hk)
            · exact Or.inr (by rw [hk, hag, resetPosition_idem])
        · exact ⟨a, List.mem_append_right _ (List.mem_cons_of_mem _ h), hk⟩
      · -- fatal or non-fatal life loss
        split
        · refine ⟨s.score, 0, true, true, pre ++ g :: gs, Or.inl rfl, ?_⟩
          intro g' hg'
          exact ⟨g', hg', Or.inl rfl⟩
        · refine ⟨s.score, s.lives - 1, s.game_over, s.show_menu,
            (pre ++ g :: gs).map Ghost.resetPosition, Or.inr ?_, ?_⟩
          · show ({ (resetPacmanPosition { s with lives := s.lives - 1 }) with
              ghosts := (pre ++ g :: gs).map Ghost.resetPosition } : MainState) = _
            simp only [resetPacmanPosition, scanPacman_const]
          · intro g' hg'
            obtain ⟨a, ha, rfl⟩ := List.mem_map.mp hg'
            exact ⟨a, ha, Or.inr rfl⟩
    · obtain ⟨sc, lv, go, sm, gh, he, hm⟩ := ih s (pre ++ [g])
      refine ⟨sc, lv, go, sm, gh, he, ?_⟩
      intro g' hg'
      obtain ⟨a, ha, hk⟩ := hm g' hg'
      exact ⟨a, by simpa [List.append_assoc] using ha, hk⟩

/-- Every ghost produced by the ghost-update pass is `Ghost::update` of an
    input ghost (for some RNG draws). -/
lemma ghostsGo_mem (o : List GOracle) (walls : List Rect) (px py : ℚ) :
    ∀ (i : ℕ) (gs : List Ghost), ∀ g' ∈ ghostsGo o walls px py i gs,
      ∃ g ∈ gs, ∃ q : GOracle, g' = ghostUpdate q walls px py g := by
  intro i gs
  induction gs generalizing i with
  | nil => intro g' hg'; simp [ghostsGo] at hg'
  | cons g gs ih =>
    intro g' hg'
    rcases (by simpa [ghostsGo] using hg' :
        g' = ghostUpdate (o.getD i GOracle.default) walls px py g ∨
          g' ∈ ghostsGo o walls px py (i + 1) gs) with h | h
    · exact ⟨g, List.mem_cons_self _ _, _, h⟩
    · obtain ⟨a, ha, q, hq⟩ := ih (i + 1) g' h
      exact ⟨a, List.mem_cons_of_mem _ ha, q, hq⟩

/-- The `dots.retain` pass is exactly a filter of the dot list plus ten
    points per removed dot; nothing else changes. -/
lemma dotsGo_spec (px py : ℚ) (s : MainState) (kept rest : List Point) :
    dotsGo px py s kept rest =
      { s with dots := kept ++ rest.filter (fun d => !(nearDot px py d)),
               score := s.score + 10 * rest.countP (fun d => nearDot px py d) } := by
  induction rest generalizing s kept with
  | nil => simp [dotsGo]
  | cons d ds ih =>
    simp only [dotsGo]
    split
    · next hnear =>
      rw [ih]
      congr 1
      · simp [List.filter_cons, hnear]
      · simp only [List.countP_cons, hnear]
        simp
        omega
    · next hnear =>
      rw [ih]
      have hb : nearDot px py d = false := Bool.eq_false_iff.mpr hnear
      congr 1
      · simp [List.filter_cons, hb, List.append_assoc]
      · simp [List.countP_cons, hb]

/-! ### Wall alignment and grid snapping -/

/-- Every wall the parser emits is a `30 × 30` square at an integer cell
    corner. -/
def cellAligned (w : Rect) : Prop :=
  w.w = 30 ∧ w.h = 30 ∧ ∃ i j : ℤ, w.x = 30 * i ∧ w.y = 30 * j

lemma parseCell_walls_aligned (x y : ℕ) (c : Char) (a : ParseAcc)
    (hw : ∀ w ∈ a.walls, cellAligned w) :
    ∀ w ∈ (parseCell x y c a).walls, cellAligned w := by
  unfold parseCell
  split
  · intro w hmem
    rcases List.mem_append.mp hmem with h | h
    · exact hw w h
    · have : w = ⟨(x : ℚ) * CELL_SIZE, (y : ℚ) * CELL_SIZE,
        THIN_WALL_SIZE, THIN_WALL_SIZE⟩ := by simpa using h
      subst this
      refine ⟨rfl, rfl, (x : ℤ), (y : ℤ), ?_, ?_⟩ <;>
        (show (_ : ℚ) * CELL_SIZE = 30 * _; rw [CELL_SIZE]; push_cast; ring)
  · split
    · exact fun w hm => hw w hm
    · split
      · exact fun w hm => hw w hm
      · split
        · exact fun w hm => hw w hm
        · exact fun w hm => hw w hm

lemma parseRowGo_walls_aligned (y : ℕ) :
    ∀ (x : ℕ) (cs : List Char) (a : ParseAcc),
      (∀ w ∈ a.walls, cellAligned w) →
      ∀ w ∈ (parseRowGo y x cs a).walls, cellAligned w := by
  intro x cs
  induction cs generalizing x with
  | nil => exact fun a ha => ha
  | cons c cs ih =>
    intro a ha
    exact ih (x + 1) _ (parseCell_walls_aligned x y c a ha)

lemma parseMapGo_walls_aligned :
    ∀ (y : ℕ) (rows : List String) (a : ParseAcc),
      (∀ w ∈ a.walls, cellAligned w) →
      ∀ w ∈ (parseMapGo y rows a).walls, cellAligned w := by
  intro y rows
  induction rows generalizing y with
  | nil => exact fun a ha => ha
  | cons r rs ih =>
    intro a ha
    exact ih (y + 1) _ (parseRowGo_walls_aligned y 0 r.toList a ha)

lemma initState_walls_eq :
    initState.walls = (parseMapGo 0 MAP_STR (initAcc 20 20)).walls := rfl

lemma initState_walls_aligned : ∀ w ∈ initState.walls, cellAligned w := by
  rw [initState_walls_eq]
  exact parseMapGo_walls_aligned 0 MAP_STR (initAcc 20 20) (by simp [initAcc])

/-- `roundRs` is within one half of its argument. -/
lemma roundRs_abs_le (q : ℚ) : |q - (roundRs q : ℚ)| ≤ 1/2 := by
  unfold roundRs
  split
  · exact abs_sub_round q
  · push_cast
    rw [show q - -(round (-q) : ℚ) = -((-q) - (round (-q) : ℚ)) by ring, abs_neg]
    exact abs_sub_round (-q)

/-- Central geometric fact for `snap_to_grid`: if the player's hitbox at
    `(x, y)` overlaps no cell-aligned wall, then neither does the hitbox
    snapped to the nearest cell. -/
lemma snap_no_wall (walls : List Rect) (hw : ∀ w ∈ walls, cellAligned w)
    (x y : ℚ)
    (h : walls.any (fun w =>
      Rect.overlaps w ⟨x, y, PACMAN_SIZE, PACMAN_SIZE⟩) = false) :
    walls.any (fun w =>
      Rect.overlaps w ⟨snapCoord x, snapCoord y, PACMAN_SIZE, PACMAN_SIZE⟩) =
      false := by
  rw [List.any_eq_false] at h ⊢
  intro w hmem
  obtain ⟨hww, hwh, i, j, hwx, hwy⟩ := hw w hmem
  have hold := h w hmem
  -- suppose the snapped hitbox overlapped the wall
  by_contra hcon
  have hov : Rect.overlaps w
      ⟨snapCoord x, snapCoord y, PACMAN_SIZE, PACMAN_SIZE⟩ = true := by
    revert hcon
    cases hov : Rect.overlaps w
      ⟨snapCoord x, snapCoord y, PACMAN_SIZE, PACMAN_SIZE⟩ <;> simp
  set cx : ℤ := roundRs (x / CELL_SIZE) with hcx
  set cy : ℤ := roundRs (y / CELL_SIZE) with hcy
  have hux : snapCoord x = (cx : ℚ) * 30 + 5/2 := by
    simp [snapCoord, CELL_SIZE, PACMAN_SIZE, hcx]
    norm_num
  have huy : snapCoord y = (cy : ℚ) * 30 + 5/2 := by
    simp [snapCoord, CELL_SIZE, PACMAN_SIZE, hcy]
    norm_num
  simp only [Rect.overlaps, Bool.and_eq_true, decide_eq_true_eq, hwx, hwy,
    hww, hwh, hux, huy, PACMAN_SIZE, ge_iff_le] at hov
  obtain ⟨⟨⟨o1, o2⟩, o3⟩, o4⟩ := hov
  -- the wall must be exactly the snapped-to cell
  have hix : i = cx := by
    have h1 : (i : ℚ) < (cx : ℚ) + 1 := by linarith
    have h2 : (cx : ℚ) < (i : ℚ) + 1 := by linarith
    have h1' : i < cx + 1 := by exact_mod_cast h1
    have h2' : cx < i + 1 := by exact_mod_cast h2
    omega
  have hjy : j = cy := by
    have h1 : (j : ℚ) < (cy : ℚ) + 1 := by linarith
    have h2 : (cy : ℚ) < (j : ℚ) + 1 := by linarith
    have h1' : j < cy + 1 := by exact_mod_cast h1
    have h2' : cy < j + 1 := by exact_mod_cast h2
    omega
  -- but the original hitbox already overlapped that cell
  have hbx : |x - (cx : ℚ) * 30| ≤ 15 := by
    have hr := roundRs_abs_le (x / CELL_SIZE)
    rw [show x - (cx : ℚ) * 30 = 30 * (x / CELL_SIZE - (cx : ℚ)) by
      rw [CELL_SIZE]; ring]
    rw [abs_mul]
    rw [hcx]
    calc |(30 : ℚ)| * |x / CELL_SIZE - (roundRs (x / CELL_SIZE) : ℚ)| ≤
        |(30 : ℚ)| * (1/2) := by
          exact mul_le_mul_of_nonneg_left hr (abs_nonneg _)
    _ = 15 := by norm_num
  have hby : |y - (cy : ℚ) * 30| ≤ 15 := by
    have hr := roundRs_abs_le (y / CELL_SIZE)
    rw [show y - (cy : ℚ) * 30 = 30 * (y / CELL_SIZE - (cy : ℚ)) by
      rw [CELL_SIZE]; ring]
    rw [abs_mul]
    rw [hcy]
    calc |(30 : ℚ)| * |y / CELL_SIZE - (roundRs (y / CELL_SIZE) : ℚ)| ≤
        |(30 : ℚ)| * (1/2) := by
          exact mul_le_mul_of_nonneg_left hr (abs_nonneg _)
    _ = 15 := by norm_num
  have hbx1 := abs_le.mp hbx
  have hby1 := abs_le.mp hby
  have : Rect.overlaps w ⟨x, y, PACMAN_SIZE, PACMAN_SIZE⟩ = true := by
    simp only [Rect.overlaps, Bool.and_eq_true, decide_eq_true_eq, hwx, hwy,
      hww, hwh, PACMAN_SIZE, ge_iff_le, hix, hjy]
    refine ⟨⟨⟨by linarith, by linarith⟩, by linarith⟩, by linarith⟩
  rw [this] at hold
  exact absurd hold (by simp)

/-! ### Derived projection lemmas for whole passes -/

lemma forall₂_mem_right {R : Ghost → Ghost → Prop} :
    ∀ {l1 l2 : List Ghost}, List.Forall₂ R l1 l2 → ∀ b ∈ l2, ∃ a ∈ l1, R a b := by
  intro l1 l2 h
  induction h with
  | nil => intro b hb; simp at hb
  | cons hr ht ih =>
    intro b hb
    rcases List.mem_cons.mp hb with rfl | hb
    · exact ⟨_, List.mem_cons_self _ _, hr⟩
    · obtain ⟨a, ha, hra⟩ := ih b hb
      exact ⟨a, List.mem_cons_of_mem _ ha, hra⟩

lemma phasePellets_proj (s : MainState) :
    (phasePellets s).walls = s.walls ∧
    (phasePellets s).pacman_x = s.pacman_x ∧
    (phasePellets s).pacman_y = s.pacman_y ∧
    (phasePellets s).current_direction = s.current_direction ∧
    (phasePellets s).requested_direction = s.requested_direction ∧
    (phasePellets s).dots = s.dots ∧
    (phasePellets s).score = s.score ∧
    (phasePellets s).lives = s.lives ∧
    (phasePellets s).game_over = s.game_over ∧
    (phasePellets s).show_menu = s.show_menu := by
  obtain ⟨pp, a, t, h | h⟩ :=
      pelletsGo_shape s.pacman_x s.pacman_y s [] s.power_pellets <;>
    (unfold phasePellets; rw [h];
     exact ⟨rfl, rfl, rfl, rfl, rfl, rfl, rfl, rfl, rfl, rfl⟩)

/-- The ghosts after the power-pellet pass: unchanged or all-vulnerable. -/
lemma phasePellets_ghosts (s : MainState) :
    (phasePellets s).ghosts = s.ghosts ∨
    (phasePellets s).ghosts =
      s.ghosts.map (fun g => { g with is_vulnerable := true }) := by
  obtain ⟨pp, a, t, h | h⟩ :=
      pelletsGo_shape s.pacman_x s.pacman_y s [] s.power_pellets <;>
    (unfold phasePellets; rw [h])
  · exact Or.inl rfl
  · exact Or.inr rfl

lemma phaseInline_proj (s : MainState) :
    (phaseInline s).walls = s.walls ∧
    (phaseInline s).pacman_x = s.pacman_x ∧
    (phaseInline s).pacman_y = s.pacman_y ∧
    (phaseInline s).current_direction = s.current_direction ∧
    (phaseInline s).requested_direction = s.requested_direction ∧
    (phaseInline s).dots = s.dots ∧
    (phaseInline s).power_pellets = s.power_pellets ∧
    (phaseInline s).power_pellet_active = s.power_pellet_active ∧
    (phaseInline s).power_pellet_timer = s.power_pellet_timer := by
  obtain ⟨sc, lv, go, sm, gh, he, -, -, -⟩ :=
    inlineGo_shape s.pacman_x s.pacman_y s [] s.ghosts
  unfold phaseInline
  rw [he]
  exact ⟨rfl, rfl, rfl, rfl, rfl, rfl, rfl, rfl, rfl⟩

/-- The inline pass keeps or resets each ghost (positionally). -/
lemma phaseInline_ghosts (s : MainState) :
    List.Forall₂ KR s.ghosts (phaseInline s).ghosts := by
  obtain ⟨sc, lv, go, sm, gh, he, hf, -, -⟩ :=
    inlineGo_shape s.pacman_x s.pacman_y s [] s.ghosts
  unfold phaseInline
  rw [he]
  simpa using hf

/-- The inline pass never clears the game-over flags. -/
lemma phaseInline_game_over (s : MainState) (h : s.game_over = true) :
    (phaseInline s).game_over = true := by
  obtain ⟨sc, lv, go, sm, gh, he, -, hg, -⟩ :=
    inlineGo_shape s.pacman_x s.pacman_y s [] s.ghosts
  unfold phaseInline
  rw [he]
  exact hg h

lemma afterInline_proj (dt : ℚ) (s : MainState) :
    (afterInline dt s).walls = s.walls ∧
    (afterInline dt s).pacman_x = s.pacman_x ∧
    (afterInline dt s).pacman_y = s.pacman_y ∧
    (afterInline dt s).current_direction = s.current_direction ∧
    (afterInline dt s).requested_direction = s.requested_direction ∧
    (afterInline dt s).dots = s.dots := by
  have h1 := phaseTimers_proj dt s
  have h2 := phasePellets_proj (phaseTimers dt s)
  have h3 := phaseInline_proj (phasePellets (phaseTimers dt s))
  unfold afterInline
  refine ⟨?_, ?_, ?_, ?_, ?_, ?_⟩
  · rw [h3.1, h2.1, h1.1]
  · rw [h3.2.1, h2.2.1, h1.2.1]
  · rw [h3.2.2.1, h2.2.2.1, h1.2.2.1]
  · rw [h3.2.2.2.1, h2.2.2.2.1, h1.2.2.2.1]
  · rw [h3.2.2.2.2.1, h2.2.2.2.2.1, h1.2.2.2.2.1]
  · rw [h3.2.2.2.2.2.1, h2.2.2.2.2.2.1, h1.2.2.2.2.2.1]

lemma afterInline_game_over (dt : ℚ) (s : MainState) (h : s.game_over = true) :
    (afterInline dt s).game_over = true := by
  unfold afterInline
  apply phaseInline_game_over
  rw [(phasePellets_proj _).2.2.2.2.2.2.2.2.1,
    (phaseTimers_proj _ _).2.2.2.2.2.2.2.2.1]
  exact h

lemma phaseGate_proj (s : MainState) :
    (phaseGate s).walls = s.walls ∧
    (phaseGate s).pacman_x = s.pacman_x ∧
    (phaseGate s).pacman_y = s.pacman_y ∧
    (phaseGate s).requested_direction = s.requested_direction ∧
    (phaseGate s).dots = s.dots ∧
    (phaseGate s).ghosts = s.ghosts ∧
    (phaseGate s).score = s.score ∧
    (phaseGate s).lives = s.lives ∧
    (phaseGate s).game_over = s.game_over ∧
    (phaseGate s).show_menu = s.show_menu := by
  refine ⟨?_, ?_, ?_, ?_, ?_, ?_, ?_, ?_, ?_, ?_⟩ <;>
    (unfold phaseGate; split <;> (try split) <;> rfl)

lemma phaseMove_proj (s : MainState) :
    (phaseMove s).walls = s.walls ∧
    (phaseMove s).requested_direction = s.requested_direction ∧
    (phaseMove s).dots = s.dots ∧
    (phaseMove s).ghosts = s.ghosts ∧
    (phaseMove s).score = s.score ∧
    (phaseMove s).lives = s.lives ∧
    (phaseMove s).game_over = s.game_over ∧
    (phaseMove s).show_menu = s.show_menu := by
  refine ⟨?_, ?_, ?_, ?_, ?_, ?_, ?_, ?_⟩ <;>
    (simp only [phaseMove]; split <;> rfl)

lemma phaseGhosts_proj (o : List GOracle) (s : MainState) :
    (phaseGhosts o s).walls = s.walls ∧
    (phaseGhosts o s).pacman_x = s.pacman_x ∧
    (phaseGhosts o s).pacman_y = s.pacman_y ∧
    (phaseGhosts o s).current_direction = s.current_direction ∧
    (phaseGhosts o s).requested_direction = s.requested_direction ∧
    (phaseGhosts o s).dots = s.dots ∧
    (phaseGhosts o s).score = s.score ∧
    (phaseGhosts o s).lives = s.lives ∧
    (phaseGhosts o s).game_over = s.game_over ∧
    (phaseGhosts o s).show_menu = s.show_menu :=
  ⟨rfl, rfl, rfl, rfl, rfl, rfl, rfl, rfl, rfl, rfl⟩

/-- Top-level shape of `check_ghost_collision`. -/
lemma checkGhostCollision_shape (s : MainState) :
    ∃ (sc : ℕ) (lv : ℤ) (go sm : Bool) (gh : List Ghost),
      (checkGhostCollision s =
         { s with score := sc, lives := lv, game_over := go, show_menu := sm,
                  ghosts := gh } ∨
       checkGhostCollision s =
         { s with score := sc, lives := lv, game_over := go, show_menu := sm,
                  ghosts := gh, pacman_x := 545/2, pacman_y := 905/2,
                  current_direction := Direction.none,
                  requested_direction := Direction.none }) ∧
      (∀ g' ∈ gh, ∃ g, g ∈ s.ghosts ∧ (g' = g ∨ g' = g.resetPosition)) := by
  unfold checkGhostCollision
  split
  · refine ⟨s.score, s.lives, s.game_over, s.show_menu, s.ghosts,
      Or.inl rfl, ?_⟩
    intro g' hg'
    exact ⟨g', hg', Or.inl rfl⟩
  · obtain ⟨sc, lv, go, sm, gh, he, hm⟩ :=
      cgcGo_shape (s.pacman_x + PACMAN_SIZE / 2) (s.pacman_y + PACMAN_SIZE / 2)
        s [] s.ghosts
    exact ⟨sc, lv, go, sm, gh, he, fun g' hg' => by
      obtain ⟨g, hgm, hk⟩ := hm g' hg'
      exact ⟨g, by simpa using hgm, hk⟩⟩

lemma keyDownEvent_proj (k : Direction) (s : MainState) :
    (keyDownEvent k s).walls = s.walls ∧
    (keyDownEvent k s).pacman_x = s.pacman_x ∧
    (keyDownEvent k s).pacman_y = s.pacman_y ∧
    (keyDownEvent k s).dots = s.dots ∧
    (keyDownEvent k s).ghosts = s.ghosts ∧
    (keyDownEvent k s).score = s.score ∧
    (keyDownEvent k s).lives = s.lives ∧
    (keyDownEvent k s).game_over = s.game_over ∧
    (keyDownEvent k s).show_menu = s.show_menu := by
  refine ⟨?_, ?_, ?_, ?_, ?_, ?_, ?_, ?_, ?_⟩ <;>
    (simp only [keyDownEvent]; split <;> (try split) <;> (try split) <;> rfl)

/-- `update` unfolded into the early-return test and the two branches. -/
lemma update_eq (o : List GOracle) (dt : ℚ) (s : MainState) :
    update o dt s =
      if (afterInline dt s).game_over = true then afterInline dt s
      else phaseDots (postMenuPhases o (afterInline dt s)) := rfl

/-! ### Invariant: every respawn timer is zero -/

/-- All pursuers have a zero respawn timer. -/
def AllRespawnZero (s : MainState) : Prop :=
  ∀ g ∈ s.ghosts, g.respawn_timer = 0

lemma allRZ_init : AllRespawnZero initState := by
  intro g hg
  revert g
  with_unfolding_all decide

lemma allRZ_phaseTimers (dt : ℚ) (s : MainState) (h : AllRespawnZero s) :
    AllRespawnZero (phaseTimers dt s) := by
  obtain ⟨f, hf, hm⟩ := phaseTimers_ghosts dt s
  intro g' hg'
  rw [hm] at hg'
  obtain ⟨g, hgmem, rfl⟩ := List.mem_map.mp hg'
  exact (hf g).2.2.2 (h g hgmem)

lemma allRZ_phasePellets (s : MainState) (h : AllRespawnZero s) :
    AllRespawnZero (phasePellets s) := by
  intro g' hg'
  rcases phasePellets_ghosts s with he | he
  · rw [he] at hg'
    exact h g' hg'
  · rw [he] at hg'
    obtain ⟨g, hgmem, rfl⟩ := List.mem_map.mp hg'
    exact h g hgmem

lemma allRZ_of_KR {g g' : Ghost} (h : KR g g') (h0 : g.respawn_timer = 0) :
    g'.respawn_timer = 0 := by
  rcases h with rfl | rfl
  · exact h0
  · rfl

lemma allRZ_phaseInline (s : MainState) (h : AllRespawnZero s) :
    AllRespawnZero (phaseInline s) := by
  intro g' hg'
  obtain ⟨g, hgmem, hk⟩ := forall₂_mem_right (phaseInline_ghosts s) g' hg'
  exact allRZ_of_KR hk (h g hgmem)

lemma allRZ_phaseGate (s : MainState) (h : AllRespawnZero s) :
    AllRespawnZero (phaseGate s) := by
  intro g' hg'
  rw [(phaseGate_proj s).2.2.2.2.2.1] at hg'
  exact h g' hg'

lemma allRZ_phaseMove (s : MainState) (h : AllRespawnZero s) :
    AllRespawnZero (phaseMove s) := by
  intro g' hg'
  rw [(phaseMove_proj s).2.2.2.1] at hg'
  exact h g' hg'

lemma allRZ_phaseGhosts (o : List GOracle) (s : MainState)
    (h : AllRespawnZero s) : AllRespawnZero (phaseGhosts o s) := by
  intro g' hg'
  obtain ⟨g, hgmem, q, rfl⟩ :=
    ghostsGo_mem o s.walls s.pacman_x s.pacman_y 0 s.ghosts g' hg'
  rw [ghostUpdate_respawn]
  exact h g hgmem

lemma allRZ_checkGhostCollision (s : MainState) (h : AllRespawnZero s) :
    AllRespawnZero (checkGhostCollision s) := by
  obtain ⟨sc, lv, go, sm, gh, he, hm⟩ := checkGhostCollision_shape s
  intro g' hg'
  have hgh : g' ∈ gh := by
    rcases he with he | he <;> (rw [he] at hg'; exact hg')
  obtain ⟨g, hgmem, hk⟩ := hm g' hgh
  exact allRZ_of_KR hk (h g hgmem)

lemma allRZ_phaseDots (s : MainState) (h : AllRespawnZero s) :
    AllRespawnZero (phaseDots s) := by
  intro g' hg'
  unfold phaseDots at hg'
  rw [dotsGo_spec] at hg'
  exact h g' hg'

lemma allRZ_update (o : List GOracle) (dt : ℚ) (s : MainState)
    (h : AllRespawnZero s) : AllRespawnZero (update o dt s) := by
  rw [update_eq]
  have hm : AllRespawnZero (afterInline dt s) :=
    allRZ_phaseInline _ (allRZ_phasePellets _ (allRZ_phaseTimers dt s h))
  split
  · exact hm
  · exact allRZ_phaseDots _ (allRZ_checkGhostCollision _
      (allRZ_phaseGhosts o _ (allRZ_phaseMove _ (allRZ_phaseGate _ hm))))

lemma allRZ_resetGame (s : MainState) (_h : AllRespawnZero s) :
    AllRespawnZero (resetGame s) := by
  intro g' hg'
  simp only [resetGame] at hg'
  split at hg'
  · simp at hg'
  · rcases (by simpa using hg' :
        g' = Ghost.new _ _ Col.red ∨ g' = Ghost.new _ _ Col.cyan ∨
          g' = Ghost.new _ _ Col.magenta) with rfl | rfl | rfl <;> rfl

lemma allRZ_keyDown (k : Direction) (s : MainState) (h : AllRespawnZero s) :
    AllRespawnZero (keyDownEvent k s) := by
  intro g' hg'
  rw [(keyDownEvent_proj k s).2.2.2.2.1] at hg'
  exact h g' hg'

lemma allRZ_reachable {s : MainState} (h : Reachable s) : AllRespawnZero s := by
  induction h with
  | init => exact allRZ_init
  | tick o dt hr ih => exact allRZ_update o dt _ ih
  | reset hr ih => exact allRZ_resetGame _ ih
  | key k hr ih => exact allRZ_keyDown k _ ih

/-! ### Invariant: the player's hitbox stays wall-free -/

/-- The walls are those of the built-in map and the player's hitbox overlaps
    none of them. -/
def PacSafe (s : MainState) : Prop :=
  s.walls = initState.walls ∧
  s.walls.any (fun w => Rect.overlaps w (pacmanRect s)) = false

lemma pacSafe_init : PacSafe initState :=
  ⟨rfl, by with_unfolding_all decide⟩

/-- The map spawn cell's hitbox is wall-free on the built-in map. -/
lemma spawn_rect_safe :
    initState.walls.any (fun w =>
      Rect.overlaps w ⟨545/2, 905/2, PACMAN_SIZE, PACMAN_SIZE⟩) = false := by
  with_unfolding_all decide

lemma pacmanRect_congr {s t : MainState} (hx : s.pacman_x = t.pacman_x)
    (hy : s.pacman_y = t.pacman_y) : pacmanRect s = pacmanRect t := by
  unfold pacmanRect
  rw [hx, hy]

lemma pacSafe_afterInline (dt : ℚ) (s : MainState) (h : PacSafe s) :
    PacSafe (afterInline dt s) := by
  have hp := afterInline_proj dt s
  refine ⟨hp.1.trans h.1, ?_⟩
  rw [hp.1, pacmanRect_congr hp.2.1 hp.2.2.1]
  exact h.2

lemma pacSafe_phaseGate (s : MainState) (h : PacSafe s) :
    PacSafe (phaseGate s) := by
  have hp := phaseGate_proj s
  refine ⟨hp.1.trans h.1, ?_⟩
  rw [hp.1, pacmanRect_congr hp.2.1 hp.2.2.1]
  exact h.2

lemma pacSafe_phaseMove (s : MainState) (h : PacSafe s) :
    PacSafe (phaseMove s) := by
  have hwalls : (phaseMove s).walls = s.walls := (phaseMove_proj s).1
  refine ⟨hwalls.trans h.1, ?_⟩
  rw [hwalls]
  simp only [phaseMove]
  split
  · next hguard =>
    simpa [pacmanRect] using (Bool.not_eq_true' _).mp hguard
  · apply snap_no_wall s.walls (h.1 ▸ initState_walls_aligned)
    simpa [pacmanRect] using h.2

lemma pacSafe_phaseGhosts (o : List GOracle) (s : MainState) (h : PacSafe s) :
    PacSafe (phaseGhosts o s) := by
  have hp := phaseGhosts_proj o s
  refine ⟨hp.1.trans h.1, ?_⟩
  rw [hp.1, pacmanRect_congr hp.2.1 hp.2.2.1]
  exact h.2

lemma pacSafe_checkGhostCollision (s : MainState) (h : PacSafe s) :
    PacSafe (checkGhostCollision s) := by
  obtain ⟨sc, lv, go, sm, gh, he, -⟩ := checkGhostCollision_shape s
  rcases he with he | he <;> rw [he]
  · exact ⟨h.1, h.2⟩
  · refine ⟨h.1, ?_⟩
    have h2 : s.walls.any (fun w =>
        Rect.overlaps w
          (⟨545/2, 905/2, PACMAN_SIZE, PACMAN_SIZE⟩ : Rect)) = false := by
      rw [h.1]
      exact spawn_rect_safe
    exact h2

lemma pacSafe_phaseDots (s : MainState) (h : PacSafe s) :
    PacSafe (phaseDots s) := by
  unfold phaseDots
  rw [dotsGo_spec]
  exact ⟨h.1, h.2⟩

lemma pacSafe_update (o : List GOracle) (dt : ℚ) (s : MainState)
    (h : PacSafe s) : PacSafe (update o dt s) := by
  rw [update_eq]
  have hm := pacSafe_afterInline dt s h
  split
  · exact hm
  · exact pacSafe_phaseDots _ (pacSafe_checkGhostCollision _
      (pacSafe_phaseGhosts o _ (pacSafe_phaseMove _ (pacSafe_phaseGate _ hm))))

lemma pacSafe_resetGame (s : MainState) (h : PacSafe s) :
    PacSafe (resetGame s) := by
  constructor
  · show (resetGame s).walls = initState.walls
    have : (resetGame s).walls = s.walls := by
      simp only [resetGame]
    exact this.trans h.1
  · have hx : (resetGame s).pacman_x = 545/2 := by
      simp only [resetGame, scanPacman_const]
    have hy : (resetGame s).pacman_y = 905/2 := by
      simp only [resetGame, scanPacman_const]
    have hw : (resetGame s).walls = initState.walls := by
      have : (resetGame s).walls = s.walls := by
        simp only [resetGame]
      exact this.trans h.1
    rw [hw, show pacmanRect (resetGame s) =
      ⟨(resetGame s).pacman_x, (resetGame s).pacman_y, PACMAN_SIZE,
        PACMAN_SIZE⟩ from rfl, hx, hy]
    exact spawn_rect_safe

lemma pacSafe_keyDown (k : Direction) (s : MainState) (h : PacSafe s) :
    PacSafe (keyDownEvent k s) := by
  have hp := keyDownEvent_proj k s
  refine ⟨hp.1.trans h.1, ?_⟩
  rw [hp.1, pacmanRect_congr hp.2.1 hp.2.2.1]
  exact h.2

lemma pacSafe_reachable {s : MainState} (h : Reachable s) : PacSafe s := by
  induction h with
  | init => exact pacSafe_init
  | tick o dt hr ih => exact pacSafe_update o dt _ ih
  | reset hr ih => exact pacSafe_resetGame _ ih
  | key k hr ih => exact pacSafe_keyDown k _ ih

/-! ### Further helpers used by the claim theorems -/

/-- The engine state as the inline collision pass leaves it after its loop
    has examined the first `n` pursuers, with the remaining pursuers still
    untouched (the pass visits them in order and never breaks). -/
def inlineMid (s : MainState) (n : ℕ) : MainState :=
  let r := inlineGo s.pacman_x s.pacman_y s [] (s.ghosts.take n)
  { r with ghosts := r.ghosts ++ s.ghosts.drop n }

/-- Two directions are perpendicular (one vertical, one horizontal). -/
def perpendicular (a b : Direction) : Prop :=
  ((a = Direction.up ∨ a = Direction.down) ∧
    (b = Direction.left ∨ b = Direction.right)) ∨
  ((a = Direction.left ∨ a = Direction.right) ∧
    (b = Direction.up ∨ b = Direction.down))

instance (a b : Direction) : Decidable (perpendicular a b) := by
  unfold perpendicular
  infer_instance

lemma isAtGridCenter_congr {s t : MainState} (hx : s.pacman_x = t.pacman_x)
    (hy : s.pacman_y = t.pacman_y) : isAtGridCenter s = isAtGridCenter t := by
  unfold isAtGridCenter
  rw [hx, hy]

lemma canMove_congr {s t : MainState} (hx : s.pacman_x = t.pacman_x)
    (hy : s.pacman_y = t.pacman_y) (hw : s.walls = t.walls) (d : Direction) :
    canMove s d = canMove t d := by
  unfold canMove
  rw [hx, hy, hw]

/-- The dot list is untouched between the start of a tick and the
    `dots.retain` pass. -/
lemma preDots_dots (o : List GOracle) (dt : ℚ) (s : MainState) :
    (preDots o dt s).dots = s.dots := by
  unfold preDots postMenuPhases
  obtain ⟨sc, lv, go, sm, gh, he, -⟩ :=
    checkGhostCollision_shape (phaseGhosts o (phaseMove (phaseGate (afterInline dt s))))
  have hcgc : (checkGhostCollision
      (phaseGhosts o (phaseMove (phaseGate (afterInline dt s))))).dots =
      (phaseGhosts o (phaseMove (phaseGate (afterInline dt s)))).dots := by
    rcases he with he | he <;> rw [he]
  rw [hcgc, (phaseGhosts_proj _ _).2.2.2.2.2.1, (phaseMove_proj _).2.2.1,
    (phaseGate_proj _).2.2.2.2.1, (afterInline_proj dt s).2.2.2.2.2]

/-- The player's direction after `check_ghost_collision`: kept or cleared. -/
lemma checkGhostCollision_current (s : MainState) :
    (checkGhostCollision s).current_direction = s.current_direction ∨
    (checkGhostCollision s).current_direction = Direction.none := by
  obtain ⟨sc, lv, go, sm, gh, he, -⟩ := checkGhostCollision_shape s
  rcases he with he | he <;> rw [he]
  · exact Or.inl rfl
  · exact Or.inr rfl

/-- The player's direction after the movement pass: kept or cleared. -/
lemma phaseMove_current (s : MainState) :
    (phaseMove s).current_direction = s.current_direction ∨
    (phaseMove s).current_direction = Direction.none := by
  simp only [phaseMove]
  split
  · exact Or.inl rfl
  · exact Or.inr rfl

/-- `parseCell` leaves the spawn position alone except on a 'P' cell. -/
lemma parseCell_pac (x y : ℕ) (c : Char) (a : ParseAcc) (hc : c ≠ 'P') :
    (parseCell x y c a).px = a.px ∧ (parseCell x y c a).py = a.py := by
  by_cases h1 : c = 'W' <;> by_cases h2 : c = '.' <;> by_cases h3 : c = 'G' <;>
    simp [parseCell, h1, h2, h3, hc]

lemma parseRowGo_pac (y : ℕ) :
    ∀ (x : ℕ) (cs : List Char) (a : ParseAcc), 'P' ∉ cs →
      (parseRowGo y x cs a).px = a.px ∧ (parseRowGo y x cs a).py = a.py := by
  intro x cs
  induction cs generalizing x with
  | nil => exact fun a _ => ⟨rfl, rfl⟩
  | cons c cs ih =>
    intro a hnp
    have hc : c ≠ 'P' := fun h => hnp (h ▸ List.mem_cons_self c cs)
    have h1 := parseCell_pac x y c a hc
    have h2 := ih (x + 1) (parseCell x y c a)
      (fun h => hnp (List.mem_cons_of_mem c h))
    exact ⟨h2.1.trans h1.1, h2.2.trans h1.2⟩

lemma parseMapGo_pac :
    ∀ (y : ℕ) (rows : List String) (a : ParseAcc),
      (∀ r ∈ rows, 'P' ∉ r.toList) →
      (parseMapGo y rows a).px = a.px ∧ (parseMapGo y rows a).py = a.py := by
  intro y rows
  induction rows generalizing y with
  | nil => exact fun a _ => ⟨rfl, rfl⟩
  | cons r rs ih =>
    intro a hnp
    have h1 := parseRowGo_pac y 0 r.toList a (hnp r (List.mem_cons_self r rs))
    have h2 := ih (y + 1) (parseRowGo y 0 r.toList a)
      (fun q hq => hnp q (List.mem_cons_of_mem r hq))
    exact ⟨h2.1.trans h1.1, h2.2.trans h1.2⟩

/-! ### Concrete states for the counterexamples and witnesses -/

/-- A pursuer sitting exactly on the player used in several concrete
    scenarios: not vulnerable, not respawning; its confused timer is armed,
    which only affects which valid direction the AI picks. -/
def cexGhostA : Ghost :=
  { x := 100, y := 100, direction := Direction.left, color := Col.red,
    target_x := 100, target_y := 100, is_vulnerable := false,
    respawn_timer := 0, spawn_position := (100, 100), confused_timer := 5 }

/-- A vulnerable pursuer in contact with the player whose spawn point is
    elsewhere. -/
def cexGhostB : Ghost :=
  { cexGhostA with x := 110, is_vulnerable := true,
                   spawn_position := (500, 500) }

/-- Last life, one deadly and one vulnerable pursuer both in contact. -/
def cexC2 : MainState :=
  { emptyState with pacman_x := 100, pacman_y := 100, lives := 1,
                    ghosts := [cexGhostA, cexGhostB] }

/-- Three lives, a single deadly pursuer in contact. -/
def cexC4 : MainState :=
  { emptyState with pacman_x := 100, pacman_y := 100, lives := 3,
                    ghosts := [cexGhostA] }

/-- A vulnerable pursuer with no walls around. -/
def cexC5 : Ghost := { cexGhostA with is_vulnerable := true }

/-- The player mid-cell moving up into a wall with a perpendicular turn
    requested. -/
def cexC6 : MainState :=
  { emptyState with pacman_x := 5/2, pacman_y := 61/2,
                    current_direction := Direction.up,
                    requested_direction := Direction.right,
                    walls := [(⟨0, 0, 30, 30⟩ : Rect)], lives := 3 }

/-- A game-over state with the player sitting on a power pickup. -/
def cexC7 : MainState :=
  { emptyState with pacman_x := 100, pacman_y := 100, lives := 0,
                    game_over := true, show_menu := true,
                    power_pellets := [(⟨112, 112⟩ : Point)],
                    ghosts := [cexGhostA] }

/-- A live state with the player sitting on a pickup. -/
def cexC9 : MainState :=
  { emptyState with pacman_x := 100, pacman_y := 100, lives := 3,
                    dots := [(⟨112, 112⟩ : Point)] }

/-- The spawn-less 3-row grid from the specification's scenario. -/
def grid3 : List String := ["WWW", "W.W", "WWW"]

/-! ### Claim C1 — wall containment -/

/-- C1 (counterexample): the claim "for every reachable engine state the
    player's and every pursuer's hitbox overlap no wall" is already false in
    the initial state of the built-in map: the first hardcoded
    center-spawned pursuer sits at (300, 300), which is a wall cell. -/
theorem C1_counterexample :
    Reachable initState ∧
    (⟨300, 300, 30, 30⟩ : Rect) ∈ initState.walls ∧
    Rect.overlaps ⟨300, 300, 30, 30⟩
      (ghostRect (initState.ghosts.getD 0 (Ghost.new 0 0 Col.red))) = true :=
  ⟨Reachable.init, by with_unfolding_all decide, by with_unfolding_all decide⟩

/-- C1 (amended): in every reachable engine state the player's hitbox
    overlaps no wall, and a pursuer whose hitbox overlaps no wall can never
    be moved into one by `Ghost::update`; the three hardcoded center-spawned
    pursuers, however, already overlap a wall at initialization. -/
theorem C1_wall_containment :
    (∀ s : MainState, Reachable s →
      ∀ w ∈ s.walls, Rect.overlaps w (pacmanRect s) = false) ∧
    (∀ (o : GOracle) (walls : List Rect) (px py : ℚ) (g : Ghost),
      walls.any (fun w => Rect.overlaps w (ghostRect g)) = false →
      walls.any (fun w =>
        Rect.overlaps w (ghostRect (ghostUpdate o walls px py g))) = false) := by
  constructor
  · intro s hs w hw
    have h := (pacSafe_reachable hs).2
    rw [List.any_eq_false] at h
    exact Bool.eq_false_iff.mpr (h w hw)
  · exact ghostUpdate_no_wall

/-- C1 (witness): both halves at concrete inputs. -/
theorem C1_wall_containment_witness :
    Rect.overlaps ⟨0, 0, 30, 30⟩ (pacmanRect initState) = false ∧
    ([(⟨0, 0, 30, 30⟩ : Rect)].any (fun w =>
      Rect.overlaps w (ghostRect
        (ghostUpdate GOracle.default [⟨0, 0, 30, 30⟩] 0 0 cexGhostA))) =
      false) :=
  ⟨C1_wall_containment.1 initState Reachable.init _ (by with_unfolding_all decide),
   C1_wall_containment.2 GOracle.default [⟨0, 0, 30, 30⟩] 0 0 cexGhostA
     (by with_unfolding_all decide)⟩

/-! ### Claim C3 — configuration error at load -/

/-- C3 (counterexample): the 3-row spawn-less grid from the specification
    does not make initialization fail — `load` succeeds and returns a
    populated engine state (the eight walls and the single pickup parsed,
    three lives, not in game over) with the player at the default origin. -/
theorem C3_counterexample :
    (∀ r ∈ grid3, 'P' ∉ r.toList) ∧ grid3 ≠ [] ∧
    (loadState grid3).isSome = true ∧
    ((loadState grid3).getD emptyState).walls.length = 8 ∧
    ((loadState grid3).getD emptyState).dots.length = 1 ∧
    ((loadState grid3).getD emptyState).lives = 3 ∧
    ((loadState grid3).getD emptyState).game_over = false := by
  refine ⟨by decide, by decide, ?_, ?_, ?_, ?_, ?_⟩ <;>
    with_unfolding_all decide

/-- C3 (amended): initialization of a nonempty grid never fails — `load`
    always returns a state, so there is no configuration error to surface at
    load time or later — and with no player-spawn marker the returned
    state's player position is silently the default origin (0, 0). -/
theorem C3_no_spawn_error :
    ∀ map : List String, map ≠ [] →
      (∃ s : MainState, loadState map = some s) ∧
      ∀ s : MainState, (∀ r ∈ map, 'P' ∉ r.toList) → loadState map = some s →
        s.pacman_x = 0 ∧ s.pacman_y = 0 := by
  intro map hne
  cases map with
  | nil => exact absurd rfl hne
  | cons r0 rs =>
    refine ⟨⟨_, rfl⟩, ?_⟩
    intro s hnp hl
    simp only [loadState] at hl
    have heq := Option.some.inj hl
    have hx := parseMapGo_pac 0 (r0 :: rs)
      (initAcc r0.length (r0 :: rs).length) hnp
    constructor
    · rw [← heq]
      exact hx.1
    · rw [← heq]
      exact hx.2

/-- C3 (witness): the amended claim evaluated on the 3-row grid. -/
theorem C3_no_spawn_witness :
    (∃ s : MainState, loadState grid3 = some s) ∧
    (((loadState grid3).getD emptyState).pacman_x = 0 ∧
      ((loadState grid3).getD emptyState).pacman_y = 0) :=
  ⟨(C3_no_spawn_error grid3 (by decide)).1,
   (C3_no_spawn_error grid3 (by decide)).2 ((loadState grid3).getD emptyState)
     (by decide) (by with_unfolding_all rfl)⟩

/-! ### Claim C7 — GameOverMenu freeze -/

/-- C7 (counterexample): in a game-over state a tick still collects a
    power pickup the player is sitting on, removing it and arming the
    power-up window — so "no power-pickup collection, no change to timers"
    is false. -/
theorem C7_counterexample :
    cexC7.game_over = true ∧
    cexC7.power_pellets.length = 1 ∧
    (update [] 0 cexC7).power_pellets.length = 0 ∧
    (update [] 0 cexC7).power_pellet_active = true := by
  refine ⟨rfl, rfl, ?_, ?_⟩ <;> with_unfolding_all decide

/-- C7 (amended): in a game-over state a tick leaves the player position,
    the committed direction, the pickups and the walls untouched (movement
    and pickup collection are skipped) — but timer decrements, power-pickup
    collection and the inline collision pass still run first. -/
theorem C7_game_over_freeze :
    ∀ (o : List GOracle) (dt : ℚ) (s : MainState), s.game_over = true →
      (update o dt s).pacman_x = s.pacman_x ∧
      (update o dt s).pacman_y = s.pacman_y ∧
      (update o dt s).current_direction = s.current_direction ∧
      (update o dt s).dots = s.dots ∧
      (update o dt s).walls = s.walls := by
  intro o dt s h
  rw [update_eq, if_pos (afterInline_game_over dt s h)]
  have hp := afterInline_proj dt s
  exact ⟨hp.2.1, hp.2.2.1, hp.2.2.2.1, hp.2.2.2.2.2, hp.1⟩

/-- C7 (witness): the amended claim at the game-over state above. -/
theorem C7_game_over_freeze_witness :
    (update [] 0 cexC7).pacman_x = cexC7.pacman_x ∧
    (update [] 0 cexC7).pacman_y = cexC7.pacman_y ∧
    (update [] 0 cexC7).current_direction = cexC7.current_direction ∧
    (update [] 0 cexC7).dots = cexC7.dots ∧
    (update [] 0 cexC7).walls = cexC7.walls :=
  C7_game_over_freeze [] 0 cexC7 rfl

/-! ### Claim C8 — pursuer-spawn derivation -/

/-- C8 (counterexample): on the built-in map (which has two pursuer-spawn
    markers) initialization and reset do NOT yield pursuer collections of
    the same size. -/
theorem C8_counterexample :
    ¬ initState.ghosts.length = (resetGame initState).ghosts.length := by
  with_unfolding_all decide

/-- C8 (amended): on the built-in map (two 'G' markers), initialization
    pushes the hardcoded center trio unconditionally and then three pursuers
    per marker at the raw (uncentered) cell corner — nine in total — while
    reset replaces the collection with exactly three pursuers at the first
    marker's centered position; the sizes and spawn layouts differ. -/
theorem C8_spawn_derivation :
    initState.ghosts.length = 9 ∧
    initState.ghosts.map (fun g => (g.x, g.y)) =
      [(300, 300), (300, 300), (300, 300), (270, 270), (270, 270), (270, 270),
       (300, 270), (300, 270), (300, 270)] ∧
    (resetGame initState).ghosts.length = 3 ∧
    (resetGame initState).ghosts.map (fun g => (g.x, g.y)) =
      [(545/2, 545/2), (545/2, 545/2), (545/2, 545/2)] := by
  refine ⟨?_, ?_, ?_, ?_⟩ <;> with_unfolding_all decide

/-! ### Claim C10 — respawn timers are always zero -/

/-- C10: in every reachable engine state every pursuer's respawn timer is
    zero: it starts at zero, `reset_position` writes zero, and the per-tick
    decrement only fires on positive values — so the "not currently
    respawning" guard always passes and a captured pursuer is immediately
    active again. -/
theorem C10_respawn_always_zero :
    ∀ s : MainState, Reachable s → ∀ g ∈ s.ghosts, g.respawn_timer = 0 :=
  fun _ hs => allRZ_reachable hs

/-- C10 (witness): the invariant at the initial state's first pursuer. -/
theorem C10_respawn_always_zero_witness :
    (initState.ghosts.getD 0 (Ghost.new 0 0 Col.red)).respawn_timer = 0 :=
  C10_respawn_always_zero initState Reachable.init _
    (by with_unfolding_all decide)

/-! ### First-deadly-contact characterization of the dedicated pass -/

/-- The loop guard of `check_ghost_collision` (lines 404-413): the pursuer
    is not respawning and its hitbox is in contact with the player. -/
def cgcGuard (px py : ℚ) (a : Ghost) : Bool :=
  decide (a.respawn_timer ≤ 0) && ghostHit px py a

lemma cgcGuard_iff (px py : ℚ) (a : Ghost) :
    cgcGuard px py a = true ↔
      (a.respawn_timer ≤ 0 ∧ ghostHit px py a = true) := by
  simp [cgcGuard]

/-- What a processed non-deadly pursuer becomes in the dedicated pass: a
    guarded (vulnerable) contact is reset to spawn, anything else is kept. -/
def cgcKeep (px py : ℚ) (a : Ghost) : Ghost :=
  if cgcGuard px py a = true then a.resetPosition else a

/-- Running the dedicated collision pass over a block of pursuers that
    contains no deadly contact (every pursuer passing the guard is
    vulnerable) awards 200 points per capture, resets the captured pursuers
    and keeps the rest, then continues with the tail. -/
lemma cgcGo_skip (px py : ℚ) (tail : List Ghost) :
    ∀ (pre : List Ghost) (s : MainState) (acc : List Ghost),
      (∀ a ∈ pre, a.respawn_timer ≤ 0 → ghostHit px py a = true →
        a.is_vulnerable = true) →
      cgcGo px py s acc (pre ++ tail) =
        cgcGo px py
          { s with score := s.score + 200 * pre.countP (cgcGuard px py) }
          (acc ++ pre.map (cgcKeep px py)) tail := by
  intro pre
  induction pre with
  | nil =>
    intro s acc _
    simp
  | cons a pre ih =>
    intro s acc hpre
    have htail : ∀ b ∈ pre, b.respawn_timer ≤ 0 → ghostHit px py b = true →
        b.is_vulnerable = true :=
      fun b hb => hpre b (List.mem_cons_of_mem a hb)
    rw [List.cons_append]
    by_cases hg : a.respawn_timer ≤ 0 ∧ ghostHit px py a = true
    · have hvul : a.is_vulnerable = true :=
        hpre a (List.mem_cons_self a pre) hg.1 hg.2
      have hga : cgcGuard px py a = true := (cgcGuard_iff px py a).mpr hg
      simp only [cgcGo]
      rw [if_pos hg, if_pos hvul]
      have hsc : s.score + 200 * List.countP (cgcGuard px py) (a :: pre) =
          ({ s with score := s.score + 200 } : MainState).score +
            200 * List.countP (cgcGuard px py) pre := by
        show s.score + 200 * List.countP (cgcGuard px py) (a :: pre) =
          s.score + 200 + 200 * List.countP (cgcGuard px py) pre
        rw [List.countP_cons_of_pos _ _ hga]
        ring
      have hacc : acc ++ (a :: pre).map (cgcKeep px py) =
          (acc ++ [a.resetPosition]) ++ pre.map (cgcKeep px py) := by
        simp [cgcKeep, hga, List.append_assoc]
      rw [hsc, hacc]
      exact ih _ _ htail
    · have hga : ¬ cgcGuard px py a = true :=
        fun h => hg ((cgcGuard_iff px py a).mp h)
      simp only [cgcGo]
      rw [if_neg hg]
      have hsc : s.score + 200 * List.countP (cgcGuard px py) (a :: pre) =
          s.score + 200 * List.countP (cgcGuard px py) pre := by
        rw [List.countP_cons_of_neg _ _ hga]
      have hacc : acc ++ (a :: pre).map (cgcKeep px py) =
          (acc ++ [a]) ++ pre.map (cgcKeep px py) := by
        simp [cgcKeep, hga, List.append_assoc]
      rw [hsc, hacc]
      exact ih _ _ htail

/-- One step of the dedicated pass at a deadly contact with more than one
    life left (lines 425-433): lives drop by one, the player is reset to the
    map spawn, every pursuer (visited ones included) is reset, and the loop
    breaks. -/
lemma cgcGo_deadly_live (px py : ℚ) (s : MainState) (acc : List Ghost)
    (g : Ghost) (rest : List Ghost) (hl : s.lives > 1)
    (hrt : g.respawn_timer ≤ 0) (hvul : g.is_vulnerable = false)
    (hhit : ghostHit px py g = true) :
    cgcGo px py s acc (g :: rest) =
      { resetPacmanPosition { s with lives := s.lives - 1 } with
        ghosts := (acc ++ g :: rest).map Ghost.resetPosition } := by
  simp only [cgcGo]
  rw [if_pos ⟨hrt, hhit⟩, if_neg (by simp [hvul]),
    if_neg (by omega : ¬ s.lives - 1 ≤ 0)]

/-- One step of the dedicated pass at a deadly contact on the last life
    (lines 417-424): game over, menu, lives clamped to zero, immediate
    return — no position is touched. -/
lemma cgcGo_deadly_fatal (px py : ℚ) (s : MainState) (acc : List Ghost)
    (g : Ghost) (rest : List Ghost) (hl : s.lives ≤ 1)
    (hrt : g.respawn_timer ≤ 0) (hvul : g.is_vulnerable = false)
    (hhit : ghostHit px py g = true) :
    cgcGo px py s acc (g :: rest) =
      { s with lives := 0, game_over := true, show_menu := true,
               ghosts := acc ++ g :: rest } := by
  simp only [cgcGo]
  rw [if_pos ⟨hrt, hhit⟩, if_neg (by simp [hvul]),
    if_pos (by omega : s.lives - 1 ≤ 0)]

/-- Resetting a kept-or-captured pursuer is just resetting it. -/
lemma cgcKeep_reset (px py : ℚ) (a : Ghost) :
    (cgcKeep px py a).resetPosition = a.resetPosition := by
  unfold cgcKeep
  split
  · exact resetPosition_idem a
  · rfl

lemma map_cgcKeep_reset (px py : ℚ) (l : List Ghost) :
    (l.map (cgcKeep px py)).map Ghost.resetPosition =
      l.map Ghost.resetPosition := by
  rw [List.map_map]
  refine List.map_congr_left ?_
  intro a _
  exact cgcKeep_reset px py a

/-- The engine state exactly as the dedicated pass `check_ghost_collision`
    receives it on a tick that survived the game-over test: after the timer,
    pellet and inline passes, the direction gate, the player movement and
    the pursuer updates. -/
def preCollision (o : List GOracle) (dt : ℚ) (s : MainState) : MainState :=
  phaseGhosts o (phaseMove (phaseGate (afterInline dt s)))

/-- The pickup pass changes only the pickup list and the score. -/
lemma phaseDots_proj (s : MainState) :
    (phaseDots s).pacman_x = s.pacman_x ∧
    (phaseDots s).pacman_y = s.pacman_y ∧
    (phaseDots s).ghosts = s.ghosts ∧
    (phaseDots s).lives = s.lives ∧
    (phaseDots s).game_over = s.game_over ∧
    (phaseDots s).show_menu = s.show_menu := by
  unfold phaseDots
  rw [dotsGo_spec]
  exact ⟨rfl, rfl, rfl, rfl, rfl, rfl⟩

/-- A captured vulnerable pursuer followed by a deadly one, three lives. -/
def cexC4b : MainState :=
  { emptyState with pacman_x := 100, pacman_y := 100, lives := 3,
                    ghosts := [cexGhostB, cexGhostA] }

/-- Last life, no contact at the start of the tick: the player steps down
    while the pursuer steps up into contact, so the fatal decrement happens
    in the dedicated pass after movement. -/
def cexC2b : MainState :=
  { emptyState with pacman_x := 100, pacman_y := 100,
                    current_direction := Direction.down, lives := 1,
                    ghosts := [{ cexGhostA with y := 126 }] }

/-- The pursuer of `cexC2b` as the pursuer-update pass leaves it: one
    `GHOST_SPEED` step up under the confused pick. -/
def cexGhostC : Ghost :=
  { cexGhostA with y := 251/2, direction := Direction.up }

/-! ### Claim C4 — non-fatal pursuer collision -/

/-- C4 (counterexample): with three lives and one deadly pursuer in
    contact, a single tick decrements lives by TWO (once in the inline pass,
    once in the dedicated pass after movement), not "by exactly one". -/
theorem C4_counterexample :
    cexC4.lives = 3 ∧
    (cexC4.ghosts.getD 0 cexGhostA).is_vulnerable = false ∧
    (cexC4.ghosts.getD 0 cexGhostA).respawn_timer = 0 ∧
    ghostHit (cexC4.pacman_x + PACMAN_SIZE / 2)
      (cexC4.pacman_y + PACMAN_SIZE / 2) (cexC4.ghosts.getD 0 cexGhostA) =
      true ∧
    (update [] 0 cexC4).lives = 1 := by
  refine ⟨rfl, rfl, rfl, ?_, ?_⟩ <;> with_unfolding_all decide

/-- C4 (amended): the dedicated pass `check_ghost_collision` alone behaves
    as the claim states for the first deadly contact wherever it sits in the
    pursuer list: provided every earlier pursuer passing the contact guard
    is vulnerable (each such capture scoring 200 and resetting that
    pursuer), reaching a non-vulnerable, non-respawning pursuer in contact
    with more than one life left decrements lives by exactly one, resets the
    player to the map spawn, resets ALL pursuers to their spawn points and
    breaks: later pursuers are not processed and the flags are untouched.
    The full tick, however, also runs an inline pass beforehand, so a
    contact persisting through movement costs two lives in one tick. -/
theorem C4_collision_resolution :
    ∀ (s : MainState) (pre : List Ghost) (g : Ghost) (rest : List Ghost),
      s.ghosts = pre ++ g :: rest →
      s.lives > 1 →
      (∀ a ∈ pre, a.respawn_timer ≤ 0 →
        ghostHit (s.pacman_x + PACMAN_SIZE / 2)
          (s.pacman_y + PACMAN_SIZE / 2) a = true →
        a.is_vulnerable = true) →
      g.respawn_timer ≤ 0 →
      g.is_vulnerable = false →
      ghostHit (s.pacman_x + PACMAN_SIZE / 2) (s.pacman_y + PACMAN_SIZE / 2) g =
        true →
      (checkGhostCollision s).lives = s.lives - 1 ∧
      (checkGhostCollision s).pacman_x = 545/2 ∧
      (checkGhostCollision s).pacman_y = 905/2 ∧
      (checkGhostCollision s).ghosts = s.ghosts.map Ghost.resetPosition ∧
      (checkGhostCollision s).score =
        s.score + 200 * pre.countP
          (cgcGuard (s.pacman_x + PACMAN_SIZE / 2)
            (s.pacman_y + PACMAN_SIZE / 2)) ∧
      (checkGhostCollision s).game_over = s.game_over ∧
      (checkGhostCollision s).show_menu = s.show_menu := by
  intro s pre g rest hgh hlv hpre hrt hvul hhit
  have hlv' :
      ({ s with
          score := s.score + 200 * pre.countP
            (cgcGuard (s.pacman_x + PACMAN_SIZE / 2)
              (s.pacman_y + PACMAN_SIZE / 2)) } : MainState).lives > 1 := hlv
  unfold checkGhostCollision
  rw [if_neg (by omega : ¬ s.lives ≤ 0), hgh,
    cgcGo_skip _ _ (g :: rest) pre s [] hpre,
    cgcGo_deadly_live _ _ _ _ _ _ hlv' hrt hvul hhit]
  refine ⟨rfl, ?_, ?_, ?_, rfl, rfl, rfl⟩
  · show (scanPacman 0 MAP_STR (s.pacman_x, s.pacman_y)).1 = 545/2
    rw [scanPacman_const]
  · show (scanPacman 0 MAP_STR (s.pacman_x, s.pacman_y)).2 = 905/2
    rw [scanPacman_const]
  · rw [hgh]
    simp [map_cgcKeep_reset, cgcKeep_reset]

/-- C4 (witness): the dedicated pass at a concrete state where the deadly
    pursuer is preceded by a captured vulnerable one. -/
theorem C4_collision_resolution_witness :
    (checkGhostCollision cexC4b).lives = cexC4b.lives - 1 ∧
    (checkGhostCollision cexC4b).pacman_x = 545/2 ∧
    (checkGhostCollision cexC4b).pacman_y = 905/2 ∧
    (checkGhostCollision cexC4b).ghosts =
      cexC4b.ghosts.map Ghost.resetPosition ∧
    (checkGhostCollision cexC4b).score =
      cexC4b.score + 200 * [cexGhostB].countP
        (cgcGuard (cexC4b.pacman_x + PACMAN_SIZE / 2)
          (cexC4b.pacman_y + PACMAN_SIZE / 2)) ∧
    (checkGhostCollision cexC4b).game_over = cexC4b.game_over ∧
    (checkGhostCollision cexC4b).show_menu = cexC4b.show_menu :=
  C4_collision_resolution cexC4b [cexGhostB] cexGhostA [] rfl (by decide)
    (by intro a ha h1 h2
        have hab := List.mem_singleton.mp ha
        subst hab
        rfl)
    (by with_unfolding_all decide) rfl (by with_unfolding_all decide)

/-! ### Claim C5 — vulnerable speed reduction -/

/-- C5 (counterexample): `VULNERABLE_GHOST_SPEED` equals `GHOST_SPEED`
    (both 0.5), so a vulnerable pursuer's effective speed is NOT half the
    normal speed: the concrete vulnerable pursuer commits a full
    `GHOST_SPEED` step. -/
theorem C5_counterexample :
    VULNERABLE_GHOST_SPEED = GHOST_SPEED ∧
    ¬ VULNERABLE_GHOST_SPEED = GHOST_SPEED / 2 ∧
    cexC5.is_vulnerable = true ∧
    (ghostUpdate GOracle.default [] 0 0 cexC5).y = cexC5.y - GHOST_SPEED := by
  refine ⟨by with_unfolding_all rfl, ?_, rfl, ?_⟩
  · norm_num [VULNERABLE_GHOST_SPEED, GHOST_SPEED]
  · with_unfolding_all decide

lemma ghostRetarget_vuln (o : GOracle) (px py : ℚ) (g : Ghost) :
    ghostRetarget o px py { g with is_vulnerable := true } =
      { ghostRetarget o px py { g with is_vulnerable := false } with
        is_vulnerable := true } := by
  simp only [ghostRetarget]
  split <;> (try split) <;> (try split) <;> rfl

lemma vuln_speed_eq : VULNERABLE_GHOST_SPEED = GHOST_SPEED := by
  with_unfolding_all rfl

lemma ghostChooseDir_vuln (o : GOracle) (walls : List Rect) (h : Ghost) :
    ghostChooseDir o walls { h with is_vulnerable := true } =
      { ghostChooseDir o walls { h with is_vulnerable := false } with
        is_vulnerable := true } := by
  simp only [ghostChooseDir, vuln_speed_eq, ite_self]
  split <;> (try split) <;> first | rfl | contradiction

lemma ghostCommit_vuln (walls : List Rect) (k : Ghost) :
    ghostCommit walls { k with is_vulnerable := true } =
      { ghostCommit walls { k with is_vulnerable := false } with
        is_vulnerable := true } := by
  simp only [ghostCommit]
  split <;> (try split) <;> rfl

lemma setVuln_self (k : Ghost) (hk : k.is_vulnerable = false) :
    ({ k with is_vulnerable := false } : Ghost) = k := by
  rw [← hk]

/-- The whole `Ghost::update` with the vulnerable flag set differs from the
    non-vulnerable run only in the flag itself. -/
lemma ghostUpdate_vuln (o : GOracle) (walls : List Rect) (px py : ℚ)
    (g : Ghost) :
    ghostUpdate o walls px py { g with is_vulnerable := true } =
      { ghostUpdate o walls px py { g with is_vulnerable := false } with
        is_vulnerable := true } := by
  have hRv : (ghostRetarget o px py
      { g with is_vulnerable := false }).is_vulnerable = false :=
    (ghostRetarget_proj o px py _).2.2.2.1
  have hCv : (ghostChooseDir o walls (ghostRetarget o px py
      { g with is_vulnerable := false })).is_vulnerable = false :=
    ((ghostChooseDir_proj o walls _).2.2.1).trans hRv
  unfold ghostUpdate
  rw [ghostRetarget_vuln, ghostChooseDir_vuln, setVuln_self _ hRv,
    ghostCommit_vuln, setVuln_self _ hCv]

/-- C5 (amended): the vulnerable speed constant equals the normal speed, so
    vulnerability does not change the committed movement at all: the
    position and selected direction after `Ghost::update` are identical
    whether or not the pursuer is vulnerable. -/
theorem C5_vulnerable_speed :
    VULNERABLE_GHOST_SPEED = GHOST_SPEED ∧
    ∀ (o : GOracle) (walls : List Rect) (px py : ℚ) (g : Ghost),
      (ghostUpdate o walls px py { g with is_vulnerable := true }).x =
        (ghostUpdate o walls px py { g with is_vulnerable := false }).x ∧
      (ghostUpdate o walls px py { g with is_vulnerable := true }).y =
        (ghostUpdate o walls px py { g with is_vulnerable := false }).y ∧
      (ghostUpdate o walls px py { g with is_vulnerable := true }).direction =
        (ghostUpdate o walls px py { g with is_vulnerable := false }).direction
    := by
  refine ⟨by with_unfolding_all rfl, ?_⟩
  intro o walls px py g
  rw [ghostUpdate_vuln]
  exact ⟨rfl, rfl, rfl⟩

/-! ### Claim C9 — pickup idempotence -/

/-- C9: on a tick that is not cut short by game over, the surviving pickups
    are exactly the old ones not within collection radius of the player's
    post-movement position, the score gains exactly ten points per removed
    pickup, and no pickup is ever added back — so a pickup scores exactly
    once and a later tick at the same position cannot score it again. -/
theorem C9_pickup_idempotence :
    ∀ (o : List GOracle) (dt : ℚ) (s : MainState),
      (afterInline dt s).game_over = false →
      (update o dt s).dots =
        (preDots o dt s).dots.filter (fun d =>
          !(nearDot (preDots o dt s).pacman_x (preDots o dt s).pacman_y d)) ∧
      (update o dt s).score =
        (preDots o dt s).score +
          10 * (preDots o dt s).dots.countP (fun d =>
            nearDot (preDots o dt s).pacman_x (preDots o dt s).pacman_y d) ∧
      (preDots o dt s).dots = s.dots ∧
      ∀ d ∈ (update o dt s).dots, d ∈ s.dots := by
  intro o dt s h
  have hup : update o dt s = phaseDots (preDots o dt s) := by
    rw [update_eq, if_neg (by simp [h])]
    rfl
  have hdt := preDots_dots o dt s
  rw [hup]
  unfold phaseDots
  rw [dotsGo_spec]
  refine ⟨by simp, rfl, hdt, ?_⟩
  intro d hd
  simp only [List.nil_append, List.mem_filter] at hd
  exact hdt ▸ hd.1

/-- C9 (witness): at a concrete state with the player on a pickup. -/
theorem C9_pickup_idempotence_witness :
    (update [] 0 cexC9).dots =
      (preDots [] 0 cexC9).dots.filter (fun d =>
        !(nearDot (preDots [] 0 cexC9).pacman_x (preDots [] 0 cexC9).pacman_y
          d)) ∧
    (update [] 0 cexC9).score =
      (preDots [] 0 cexC9).score +
        10 * (preDots [] 0 cexC9).dots.countP (fun d =>
          nearDot (preDots [] 0 cexC9).pacman_x (preDots [] 0 cexC9).pacman_y
            d) ∧
    (preDots [] 0 cexC9).dots = cexC9.dots ∧
    ∀ d ∈ (update [] 0 cexC9).dots, d ∈ cexC9.dots :=
  C9_pickup_idempotence [] 0 cexC9 (by with_unfolding_all decide)

/-! ### Claim C2 — life-loss transition -/

/-- Position-or-spawn relation between a ghost at the start of a tick and
    at its end. -/
def PosR (a b : Ghost) : Prop :=
  (b.x = a.x ∧ b.y = a.y) ∨
  (b.x = a.spawn_position.1 ∧ b.y = a.spawn_position.2)

/-- C2 (counterexample): with one life left, a deadly pursuer and a
    vulnerable pursuer both in contact, the inline pass decrements lives to
    exactly 0 while processing the first pursuer — at that moment the second
    pursuer still stands at x = 110 — yet by the end of the very same tick
    the second pursuer has been moved to its spawn x = 500: a pursuer
    position is mutated after the fatal decrement within the tick. -/
theorem C2_counterexample :
    cexC2.lives = 1 ∧
    (inlineMid (phasePellets (phaseTimers 0 cexC2)) 1).lives = 0 ∧
    ((inlineMid (phasePellets (phaseTimers 0 cexC2)) 1).ghosts.getD 1
      cexGhostA).x = 110 ∧
    (update [] 0 cexC2).game_over = true ∧
    ((update [] 0 cexC2).ghosts.getD 1 cexGhostA).x = 500 := by
  refine ⟨rfl, ?_, ?_, ?_, ?_⟩ <;> with_unfolding_all decide

/-- C2 (amended): a tick decrements lives to exactly zero either in the
    inline pass or in the dedicated pass after movement, and in both cases
    the game-over phase is entered by the end of that same tick with no
    position mutation after the fatal decrement.  Inline case: the tick ends
    in game over, the player keeps its start-of-tick position, and each
    pursuer ends at its start position or its spawn point (vulnerable ones
    can still be captured by the same pass after the decrement).  Dedicated
    case (the first deadly contact comes after captured-or-kept pursuers,
    with one life left on entry): the pass returns immediately, so the
    player keeps its post-movement position, the deadly pursuer and every
    later one keep their post-update positions, earlier ones changed only by
    the captures preceding the decrement, and lives is clamped to zero with
    the game-over and menu flags set. -/
theorem C2_life_loss :
    ∀ (o : List GOracle) (dt : ℚ) (s : MainState),
      s.game_over = false →
      ((afterInline dt s).game_over = true →
        (update o dt s).game_over = true ∧
        (update o dt s).pacman_x = s.pacman_x ∧
        (update o dt s).pacman_y = s.pacman_y ∧
        List.Forall₂ PosR s.ghosts (update o dt s).ghosts) ∧
      (∀ (pre : List Ghost) (g : Ghost) (rest : List Ghost),
        (afterInline dt s).game_over = false →
        (preCollision o dt s).ghosts = pre ++ g :: rest →
        (preCollision o dt s).lives = 1 →
        (∀ a ∈ pre, a.respawn_timer ≤ 0 →
          ghostHit ((preCollision o dt s).pacman_x + PACMAN_SIZE / 2)
            ((preCollision o dt s).pacman_y + PACMAN_SIZE / 2) a = true →
          a.is_vulnerable = true) →
        g.respawn_timer ≤ 0 →
        g.is_vulnerable = false →
        ghostHit ((preCollision o dt s).pacman_x + PACMAN_SIZE / 2)
          ((preCollision o dt s).pacman_y + PACMAN_SIZE / 2) g = true →
        (update o dt s).game_over = true ∧
        (update o dt s).lives = 0 ∧
        (update o dt s).pacman_x = (preCollision o dt s).pacman_x ∧
        (update o dt s).pacman_y = (preCollision o dt s).pacman_y ∧
        (update o dt s).ghosts =
          pre.map (cgcKeep ((preCollision o dt s).pacman_x + PACMAN_SIZE / 2)
            ((preCollision o dt s).pacman_y + PACMAN_SIZE / 2)) ++
            g :: rest) := by
  intro o dt s hgo
  constructor
  · intro hover
    have hup : update o dt s = afterInline dt s := by
      rw [update_eq, if_pos hover]
    rw [hup]
    have hp := afterInline_proj dt s
    refine ⟨hover, hp.2.1, hp.2.2.1, ?_⟩
    -- a single map `F` that preserves position and spawn covers the timers
    -- and power-pellet passes
    obtain ⟨f, hf, hm1⟩ := phaseTimers_ghosts dt s
    have hFm : ∃ F : Ghost → Ghost,
        (∀ g, (F g).x = g.x ∧ (F g).y = g.y ∧
          (F g).spawn_position = g.spawn_position) ∧
        (phasePellets (phaseTimers dt s)).ghosts = s.ghosts.map F := by
      rcases phasePellets_ghosts (phaseTimers dt s) with he | he
      · exact ⟨f, fun g => ⟨(hf g).1, (hf g).2.1, (hf g).2.2.1⟩,
          by rw [he, hm1]⟩
      · refine ⟨fun g => { f g with is_vulnerable := true },
          fun g => ⟨(hf g).1, (hf g).2.1, (hf g).2.2.1⟩, ?_⟩
        rw [he, hm1, List.map_map]
        rfl
    obtain ⟨F, hF, hmF⟩ := hFm
    have hkr := phaseInline_ghosts (phasePellets (phaseTimers dt s))
    rw [hmF] at hkr
    have hkr2 := List.forall₂_map_left_iff.mp hkr
    show List.Forall₂ PosR s.ghosts
      (phaseInline (phasePellets (phaseTimers dt s))).ghosts
    refine List.Forall₂.imp ?_ hkr2
    intro a b hab
    rcases hab with rfl | rfl
    · exact Or.inl ⟨(hF a).1, (hF a).2.1⟩
    · refine Or.inr ?_
      show (F a).spawn_position.1 = a.spawn_position.1 ∧
        (F a).spawn_position.2 = a.spawn_position.2
      rw [(hF a).2.2]
      exact ⟨rfl, rfl⟩
  · intro pre g rest hngo hgh hlv hpre hrt hvul hhit
    have hup : update o dt s =
        phaseDots (checkGhostCollision (preCollision o dt s)) := by
      rw [update_eq, if_neg (by simp [hngo])]
      rfl
    have hcgc : checkGhostCollision (preCollision o dt s) =
        { preCollision o dt s with
            score := (preCollision o dt s).score + 200 * pre.countP
              (cgcGuard ((preCollision o dt s).pacman_x + PACMAN_SIZE / 2)
                ((preCollision o dt s).pacman_y + PACMAN_SIZE / 2)),
            lives := 0, game_over := true, show_menu := true,
            ghosts :=
              pre.map (cgcKeep
                ((preCollision o dt s).pacman_x + PACMAN_SIZE / 2)
                ((preCollision o dt s).pacman_y + PACMAN_SIZE / 2)) ++
                g :: rest } := by
      have hlv' : ({ preCollision o dt s with
          score := (preCollision o dt s).score + 200 * pre.countP
            (cgcGuard ((preCollision o dt s).pacman_x + PACMAN_SIZE / 2)
              ((preCollision o dt s).pacman_y + PACMAN_SIZE / 2)) }
          : MainState).lives ≤ 1 := le_of_eq hlv
      unfold checkGhostCollision
      rw [if_neg (by omega : ¬ (preCollision o dt s).lives ≤ 0), hgh,
        cgcGo_skip _ _ (g :: rest) pre _ [] hpre,
        cgcGo_deadly_fatal _ _ _ _ _ _ hlv' hrt hvul hhit]
      rfl
    rw [hup, hcgc]
    exact ⟨(phaseDots_proj _).2.2.2.2.1, (phaseDots_proj _).2.2.2.1,
      (phaseDots_proj _).1, (phaseDots_proj _).2.1, (phaseDots_proj _).2.2.1⟩

/-- C2 (witness): both fatal-decrement sites at concrete states — the
    last-life inline contact `cexC2` and the last-life post-movement contact
    `cexC2b`. -/
theorem C2_life_loss_witness :
    ((update [] 0 cexC2).game_over = true ∧
      (update [] 0 cexC2).pacman_x = cexC2.pacman_x ∧
      (update [] 0 cexC2).pacman_y = cexC2.pacman_y ∧
      List.Forall₂ PosR cexC2.ghosts (update [] 0 cexC2).ghosts) ∧
    ((update [] 0 cexC2b).game_over = true ∧
      (update [] 0 cexC2b).lives = 0 ∧
      (update [] 0 cexC2b).pacman_x = (preCollision [] 0 cexC2b).pacman_x ∧
      (update [] 0 cexC2b).pacman_y = (preCollision [] 0 cexC2b).pacman_y ∧
      (update [] 0 cexC2b).ghosts =
        ([] : List Ghost).map (cgcKeep
          ((preCollision [] 0 cexC2b).pacman_x + PACMAN_SIZE / 2)
          ((preCollision [] 0 cexC2b).pacman_y + PACMAN_SIZE / 2)) ++
          cexGhostC :: []) :=
  ⟨(C2_life_loss [] 0 cexC2 rfl).1 (by with_unfolding_all decide),
   (C2_life_loss [] 0 cexC2b rfl).2 [] cexGhostC []
     (by with_unfolding_all decide)
     (by with_unfolding_all decide)
     (by with_unfolding_all decide)
     (by intro a ha h1 h2; exact absurd ha (List.not_mem_nil a))
     (by with_unfolding_all decide)
     rfl
     (by with_unfolding_all decide)⟩

/-! ### Claim C6 — grid-turn gating -/

/-- What the direction gate can do to the committed direction. -/
lemma phaseGate_cases (s : MainState) :
    (phaseGate s).current_direction = s.current_direction ∨
    ((phaseGate s).current_direction = s.requested_direction ∧
      isAtGridCenter s = true ∧ canMove s s.requested_direction = true) := by
  unfold phaseGate
  split
  · next hc =>
    split
    · next hcm => exact Or.inr ⟨rfl, hc, hcm⟩
    · exact Or.inl rfl
  · exact Or.inl rfl

/-- C6 (counterexample): mid-cell, moving up into a wall with a
    perpendicular request, a tick DOES change the committed direction — the
    blocked move snaps to the grid and clears it to `None`.  So "repeated
    ticks never change the committed direction while mid-cell" is false as
    stated (it only never becomes the requested direction). -/
theorem C6_counterexample :
    isAtGridCenter cexC6 = false ∧
    cexC6.current_direction = Direction.up ∧
    cexC6.requested_direction = Direction.right ∧
    perpendicular cexC6.current_direction cexC6.requested_direction ∧
    (update [] 0 cexC6).current_direction = Direction.none := by
  refine ⟨?_, rfl, rfl, by decide, ?_⟩ <;> with_unfolding_all decide

/-- C6 (amended): on a tick that starts mid-cell the committed direction is
    either unchanged or cleared to `None` (never set to anything else, in
    particular never to a perpendicular request); and the committed
    direction becomes the (non-`None`, different) requested one only on a
    tick that begins grid-centered with that direction unblocked. -/
theorem C6_turn_gating :
    ∀ (o : List GOracle) (dt : ℚ) (s : MainState),
      (isAtGridCenter s = false →
        (update o dt s).current_direction = s.current_direction ∨
        (update o dt s).current_direction = Direction.none) ∧
      (s.requested_direction ≠ Direction.none →
        s.requested_direction ≠ s.current_direction →
        (update o dt s).current_direction = s.requested_direction →
        isAtGridCenter s = true ∧ canMove s s.requested_direction = true) := by
  intro o dt s
  have hp := afterInline_proj dt s
  have hcen : isAtGridCenter (afterInline dt s) = isAtGridCenter s :=
    isAtGridCenter_congr hp.2.1 hp.2.2.1
  have hreq : (afterInline dt s).requested_direction = s.requested_direction :=
    hp.2.2.2.2.1
  have hcur : (afterInline dt s).current_direction = s.current_direction :=
    hp.2.2.2.1
  have hcm : canMove (afterInline dt s) (afterInline dt s).requested_direction =
      canMove s s.requested_direction := by
    rw [hreq]
    exact canMove_congr hp.2.1 hp.2.2.1 hp.1 _
  rw [update_eq]
  split
  · constructor
    · intro _
      exact Or.inl hcur
    · intro h1 h2 h3
      exact absurd (hcur.symm.trans h3).symm h2
  · -- the long branch: trace the committed direction through the passes
    have hdots : ∀ t : MainState, (phaseDots t).current_direction =
        t.current_direction := by
      intro t
      unfold phaseDots
      rw [dotsGo_spec]
    have hchain :
        (phaseDots (postMenuPhases o (afterInline dt s))).current_direction =
          (checkGhostCollision (phaseGhosts o (phaseMove (phaseGate
            (afterInline dt s))))).current_direction := by
      rw [hdots]
      rfl
    rw [hchain]
    have hcgc := checkGhostCollision_current
      (phaseGhosts o (phaseMove (phaseGate (afterInline dt s))))
    have hgh : (phaseGhosts o (phaseMove (phaseGate
        (afterInline dt s)))).current_direction =
        (phaseMove (phaseGate (afterInline dt s))).current_direction :=
      (phaseGhosts_proj o _).2.2.2.1
    have hmv := phaseMove_current (phaseGate (afterInline dt s))
    have hgate := phaseGate_cases (afterInline dt s)
    constructor
    · intro hnc
      -- the gate cannot fire off-center
      have hg1 : (phaseGate (afterInline dt s)).current_direction =
          s.current_direction := by
        rcases hgate with h | ⟨-, hc, -⟩
        · exact h.trans hcur
        · rw [hcen] at hc
          exact absurd hc (by simp [hnc])
      rcases hcgc with h | h
      · rw [h, hgh]
        rcases hmv with h2 | h2
        · exact Or.inl (h2.trans hg1)
        · exact Or.inr h2
      · exact Or.inr h
    · intro h1 h2 h3
      -- climb back up: only the gate can have produced the requested value
      rcases hcgc with h | h
      · rw [h, hgh] at h3
        rcases hmv with hm2 | hm2
        · rw [hm2] at h3
          rcases hgate with h4 | ⟨h4, hc, hcmv⟩
          · exact absurd (h3.symm.trans (h4.trans hcur)) h2
          · rw [hcen] at hc
            rw [hcm] at hcmv
            exact ⟨hc, hcmv⟩
        · rw [hm2] at h3
          exact absurd h3.symm h1
      · rw [h] at h3
        exact absurd h3.symm h1

/-- C6 (witness): the first half of the amended claim at the concrete
    mid-cell state. -/
theorem C6_turn_gating_witness :
    (update [] 0 cexC6).current_direction = cexC6.current_direction ∨
    (update [] 0 cexC6).current_direction = Direction.none :=
  (C6_turn_gating [] 0 cexC6).1 (by with_unfolding_all decide)

end Pacman
